import Mathlib

/-!
Verification development for the AmScan-Morrisons EDIFACT invoice tool.

This file gives a shallow embedding, in Lean 4, of the JavaScript core of the
repository:

* the field sanitizer `validateAndSanitizeValue` and the `EDIValidationTracker`
  (src/sale-invoice-handler.js, validating variant),
* the EDIFACT document builder `buildEDIFACTInvoice` (same file),
* the `ProcessingResultsManager` ledger (src/processing-results-manager.js),
* the processed-invoice registry `markInvoiceAsProcessed` /
  `getInvoiceProcessingStats` (src/main-process-handlers.js).

Modelling conventions:

* JavaScript values that flow through the builder are modelled by `JSValue`
  (undefined, null, string, number).  Numbers are modelled exactly, as
  rationals extended with NaN and the two infinities (`JSNum`); this is an
  idealisation of IEEE doubles in which arithmetic is exact.  None of the
  properties proved below depend on binary rounding of doubles.
* Host primitives (`Number(...)`, `parseFloat`, `toFixed`, `padStart`,
  `substring`, `trim`, `new Date(...)`) are embedded as executable Lean
  functions mirroring their ECMAScript behaviour on the value shapes the
  program feeds them; `Number`/`parseFloat` cover decimal literals (the
  exponent/hex forms never arise here), `trim` covers ASCII whitespace, and
  date parsing covers the ISO `YYYY-MM-DD` / `YYYY-MM-DDTHH:MM:SS` forms the
  upstream API supplies, evaluated in UTC.
* Asynchronous code is sequential in the source (each `await` is a single
  remote call in a straight line), so the builder is embedded as a pure
  function parameterised by the barcode-lookup oracle, and the ledger as a
  state-transformer on an explicit state type.
-/

/-! ### JavaScript numbers: exact fractions extended with NaN and infinities

Finite JS numbers are modelled as unreduced fractions (integer numerator over
positive natural denominator); every operation below keeps the denominator
positive, and `===` compares values by cross-multiplication.  Fractions are
kept unreduced so that all arithmetic is plain `Int`/`Nat` computation, which
the kernel evaluates. -/

structure JSRat where
  num : Int
  den : Nat
  deriving DecidableEq, Repr

def JSRat.ofInt (n : Int) : JSRat := ⟨n, 1⟩

/-- Value equality of two fractions (denominators are positive by
construction). -/
def JSRat.eqv (a b : JSRat) : Bool := a.num * b.den == b.num * a.den

def JSRat.neg (a : JSRat) : JSRat := ⟨-a.num, a.den⟩

def JSRat.add (a b : JSRat) : JSRat := ⟨a.num * b.den + b.num * a.den, a.den * b.den⟩

def JSRat.mul (a b : JSRat) : JSRat := ⟨a.num * b.num, a.den * b.den⟩

/-- Division of fractions, for a divisor with nonzero numerator; the sign is
pulled into the numerator to keep the denominator positive. -/
def JSRat.div (a b : JSRat) : JSRat :=
  let n := a.num * (b.den : Int)
  let d := (a.den : Int) * b.num
  if d < 0 then ⟨-n, d.natAbs⟩ else ⟨n, d.natAbs⟩

inductive JSNum where
  | nan
  | inf
  | ninf
  | fin (q : JSRat)
  deriving DecidableEq, Repr

def jsIsNaN : JSNum → Bool
  | .nan => true
  | _ => false

/-- Strict (`===`) equality of two JS numbers: `NaN` compares unequal to
everything, including itself. -/
def jsNumEq : JSNum → JSNum → Bool
  | .fin a, .fin b => a.eqv b
  | .inf, .inf => true
  | .ninf, .ninf => true
  | _, _ => false

def jsTruthyNum : JSNum → Bool
  | .nan => false
  | .fin q => q.num != 0
  | _ => true

def jsAdd : JSNum → JSNum → JSNum
  | .nan, _ => .nan
  | _, .nan => .nan
  | .inf, .ninf => .nan
  | .ninf, .inf => .nan
  | .inf, _ => .inf
  | _, .inf => .inf
  | .ninf, _ => .ninf
  | _, .ninf => .ninf
  | .fin a, .fin b => .fin (a.add b)

def jsMul : JSNum → JSNum → JSNum
  | .nan, _ => .nan
  | _, .nan => .nan
  | .inf, .inf => .inf
  | .inf, .ninf => .ninf
  | .ninf, .inf => .ninf
  | .ninf, .ninf => .inf
  | .inf, .fin b => if 0 < b.num then .inf else if b.num < 0 then .ninf else .nan
  | .fin a, .inf => if 0 < a.num then .inf else if a.num < 0 then .ninf else .nan
  | .ninf, .fin b => if 0 < b.num then .ninf else if b.num < 0 then .inf else .nan
  | .fin a, .ninf => if 0 < a.num then .ninf else if a.num < 0 then .inf else .nan
  | .fin a, .fin b => .fin (a.mul b)

def jsDiv : JSNum → JSNum → JSNum
  | .nan, _ => .nan
  | _, .nan => .nan
  | .inf, .inf => .nan
  | .inf, .ninf => .nan
  | .ninf, .inf => .nan
  | .ninf, .ninf => .nan
  | .inf, .fin b => if b.num < 0 then .ninf else .inf
  | .ninf, .fin b => if b.num < 0 then .inf else .ninf
  | .fin _, .inf => .fin (.ofInt 0)
  | .fin _, .ninf => .fin (.ofInt 0)
  | .fin a, .fin b =>
      if b.num = 0 then
        (if 0 < a.num then .inf else if a.num < 0 then .ninf else .nan)
      else .fin (a.div b)

/-! ### Decimal rendering of naturals, integers and JS numbers -/

def natDecimalAux : Nat → Nat → List Char
  | 0, _ => []
  | _ + 1, 0 => []
  | fuel + 1, n => natDecimalAux fuel (n / 10) ++ [Char.ofNat (48 + n % 10)]

/-- Decimal rendering of a natural number, as JavaScript `String(n)` renders
a non-negative integer. -/
def natDecimal (n : Nat) : String :=
  if n = 0 then "0" else ⟨natDecimalAux (n + 1) n⟩

/-- Render a non-negative fraction the way JavaScript stringifies a
non-negative finite number: the shortest terminating decimal expansion.
Searches for the least number of fractional digits that makes the value an
integer; every number that actually occurs in the program terminates (IEEE
doubles are dyadic rationals). -/
def ratDecimalNN (q : JSRat) : String :=
  match (List.range 1200).find? (fun k => (q.num * (10 : Int) ^ k) % (q.den : Int) == 0) with
  | some 0 => natDecimal (q.num / (q.den : Int)).toNat
  | some (k + 1) =>
      let n := ((q.num * (10 : Int) ^ (k + 1)) / (q.den : Int)).toNat
      let ip := n / 10 ^ (k + 1)
      let fp := n % 10 ^ (k + 1)
      natDecimal ip ++ "." ++
        (let ds := natDecimal fp
         ⟨List.replicate (k + 1 - ds.length) '0'⟩ ++ ds)
  | none => "0"

def numToString : JSNum → String
  | .nan => "NaN"
  | .inf => "Infinity"
  | .ninf => "-Infinity"
  | .fin q => if q.num < 0 then "-" ++ ratDecimalNN q.neg else ratDecimalNN q

/-- `Number.prototype.toFixed(2)`: two fractional digits, ties picked in the
direction of the larger candidate after stripping the sign (ECMAScript
ToFixed).  For a non-negative `x = num/den`, the integer scaled value is
`⌊x * 100 + 1/2⌋ = ⌊(200 num + den) / (2 den)⌋`. -/
def toFixed2 : JSNum → String
  | .nan => "NaN"
  | .inf => "Infinity"
  | .ninf => "-Infinity"
  | .fin q =>
      let render : JSRat → String := fun x =>
        let n := ((200 * x.num + (x.den : Int)).fdiv (2 * (x.den : Int))).toNat
        natDecimal (n / 100) ++ "." ++
          (let ds := natDecimal (n % 100)
           ⟨List.replicate (2 - ds.length) '0'⟩ ++ ds)
      if q.num < 0 then "-" ++ render q.neg else render q

/-! ### JavaScript string primitives -/

/-- ASCII whitespace as recognised by the embedding of `String.prototype.trim`. -/
def jsWhite (c : Char) : Bool :=
  c == ' ' || c == '\t' || c == '\n' || c == '\r' || c == '\x0b' || c == '\x0c'

def jsTrim (s : String) : String :=
  ⟨(s.data.dropWhile jsWhite).reverse.dropWhile jsWhite |>.reverse⟩

/-- `String.prototype.padStart(n, c)`. -/
def jsPadStart (s : String) (n : Nat) (c : Char) : String :=
  if n ≤ s.length then s else ⟨List.replicate (n - s.length) c⟩ ++ s

/-- `String.prototype.substring(a)` (drop the first `a` characters). -/
def jsSubstringFrom (s : String) (a : Nat) : String :=
  ⟨s.data.drop a⟩

/-- `String.prototype.substring(a, b)` (characters in `[a, b)`), for `a ≤ b`. -/
def jsSubstringRange (s : String) (a b : Nat) : String :=
  ⟨(s.data.take b).drop a⟩

def splitCharAux (sep : Char) : List Char → List String
  | [] => [""]
  | c :: rest =>
      match splitCharAux sep rest with
      | [] => [""]
      | h :: t => if c = sep then "" :: h :: t else (⟨c :: h.data⟩ : String) :: t

/-- `String.prototype.split(sep)` for a one-character separator. -/
def jsSplitChar (s : String) (sep : Char) : List String := splitCharAux sep s.data

/-- `Array.prototype.join('\n')`. -/
def joinNl : List String → String
  | [] => ""
  | [s] => s
  | s :: rest => s ++ "\n" ++ joinNl rest

/-! ### JavaScript `Number(...)` and `parseFloat` on strings

Decimal literals only (signs, digits, an optional fractional part); the
program never feeds these functions exponent or hex notation. -/

def digitsVal (l : List Char) : Nat :=
  l.foldl (fun acc c => acc * 10 + (c.toNat - 48)) 0

/-- Parse a full string of shape `sign? (digits ('.' digits?)? | '.' digits)`
into a fraction; `none` when the string is not of that shape. -/
def parseDecimalAll (l : List Char) : Option JSRat :=
  let (sgn, rest) :=
    match l with
    | '-' :: r => ((-1 : Int), r)
    | '+' :: r => ((1 : Int), r)
    | r => ((1 : Int), r)
  let ipart := rest.takeWhile Char.isDigit
  let rest2 := rest.dropWhile Char.isDigit
  match rest2 with
  | [] => if ipart = [] then none else some ⟨sgn * digitsVal ipart, 1⟩
  | '.' :: frac =>
      if frac.all Char.isDigit ∧ (ipart ≠ [] ∨ frac ≠ []) then
        some ⟨sgn * (digitsVal ipart * 10 ^ frac.length + digitsVal frac), 10 ^ frac.length⟩
      else none
  | _ => none

/-- `Number(s)` on a string: trim, empty means `0`, the infinities by name,
otherwise the whole string must be a decimal literal, else `NaN`. -/
def jsNumberOfString (s : String) : JSNum :=
  let t := jsTrim s
  if t = "" then .fin (.ofInt 0)
  else if t = "Infinity" ∨ t = "+Infinity" then .inf
  else if t = "-Infinity" then .ninf
  else
    match parseDecimalAll t.data with
    | some q => .fin q
    | none => .nan

/-- `parseFloat(s)`: skip leading whitespace, read the longest prefix that is
a decimal literal (`Infinity` by name); `NaN` when no prefix parses. -/
def jsParseFloat (s : String) : JSNum :=
  let l := s.data.dropWhile jsWhite
  let (sgn, rest) :=
    match l with
    | '-' :: r => ((-1 : Int), r)
    | '+' :: r => ((1 : Int), r)
    | r => ((1 : Int), r)
  if rest.take 8 = "Infinity".data then
    (if sgn < 0 then .ninf else .inf)
  else
    let ipart := rest.takeWhile Char.isDigit
    let rest2 := rest.dropWhile Char.isDigit
    let fpart :=
      match rest2 with
      | '.' :: frac => frac.takeWhile Char.isDigit
      | _ => []
    if ipart = [] ∧ fpart = [] then .nan
    else .fin ⟨sgn * (digitsVal ipart * 10 ^ fpart.length + digitsVal fpart), 10 ^ fpart.length⟩

/-! ### JavaScript values -/

inductive JSValue where
  | undef
  | null
  | str (s : String)
  | num (n : JSNum)
  deriving DecidableEq, Repr

/-- `String(v)`. -/
def jsToString : JSValue → String
  | .undef => "undefined"
  | .null => "null"
  | .str s => s
  | .num n => numToString n

/-- `Number(v)`. -/
def jsNumberOfValue : JSValue → JSNum
  | .undef => .nan
  | .null => .fin (.ofInt 0)
  | .str s => jsNumberOfString s
  | .num n => n

def jsTruthy : JSValue → Bool
  | .undef => false
  | .null => false
  | .str s => s != ""
  | .num n => jsTruthyNum n

/-- `x || 0` for a JS number: the number itself when truthy, else `0`. -/
def jsOrZero (n : JSNum) : JSNum :=
  if jsTruthyNum n then n else .fin (.ofInt 0)

/-! ### `new Date(...)` on ISO strings, and calendar validity -/

def isLeapYear (y : Nat) : Bool :=
  y % 4 = 0 && (y % 100 != 0 || y % 400 = 0)

def daysInMonth (y m : Nat) : Nat :=
  if m = 1 ∨ m = 3 ∨ m = 5 ∨ m = 7 ∨ m = 8 ∨ m = 10 ∨ m = 12 then 31
  else if m = 4 ∨ m = 6 ∨ m = 9 ∨ m = 11 then 30
  else if isLeapYear y then 29 else 28

structure DateParts where
  year : Nat
  month : Nat
  day : Nat
  hour : Nat
  minute : Nat
  second : Nat
  deriving DecidableEq, Repr

def mkDateParts (y mo d hh mi ss : Nat) : Option DateParts :=
  if 1 ≤ mo ∧ mo ≤ 12 ∧ 1 ≤ d ∧ d ≤ daysInMonth y mo ∧ hh < 24 ∧ mi < 60 ∧ ss < 60 then
    some ⟨y, mo, d, hh, mi, ss⟩
  else none

def digits2 (a b : Char) : Option Nat :=
  if a.isDigit ∧ b.isDigit then some ((a.toNat - 48) * 10 + (b.toNat - 48)) else none

def digits4 (a b c d : Char) : Option Nat :=
  if a.isDigit ∧ b.isDigit ∧ c.isDigit ∧ d.isDigit then
    some ((((a.toNat - 48) * 10 + (b.toNat - 48)) * 10 + (c.toNat - 48)) * 10 + (d.toNat - 48))
  else none

/-- `new Date(s)` restricted to the ISO forms the program receives
(`YYYY-MM-DD`, `YYYY-MM-DDTHH:MM:SS`), evaluated in UTC; `none` is
`Invalid Date`. -/
def jsParseDate (s : String) : Option DateParts :=
  match s.data with
  | [y1, y2, y3, y4, '-', m1, m2, '-', d1, d2] =>
      match digits4 y1 y2 y3 y4, digits2 m1 m2, digits2 d1 d2 with
      | some y, some mo, some d => mkDateParts y mo d 0 0 0
      | _, _, _ => none
  | [y1, y2, y3, y4, '-', m1, m2, '-', d1, d2, 'T', h1, h2, ':', i1, i2, ':', s1, s2] =>
      match digits4 y1 y2 y3 y4, digits2 m1 m2, digits2 d1 d2,
            digits2 h1 h2, digits2 i1 i2, digits2 s1 s2 with
      | some y, some mo, some d, some hh, some mi, some ss => mkDateParts y mo d hh mi ss
      | _, _, _, _, _, _ => none
  | _ => none

/-! ### The field sanitizer (`validateAndSanitizeValue`) -/

structure ValidationResult where
  value : String
  isValid : Bool
  fieldName : String
  originalValue : JSValue
  deriving DecidableEq, Repr

/-- `validateAndSanitizeValue(value, fieldName, defaultValue = "UNDEFINED")`
from src/sale-invoice-handler.js: `undefined`, `null` and the empty string
substitute the default; a whitespace-only string substitutes the default;
anything else is stringified and kept. -/
def validateAndSanitizeValue (value : JSValue) (fieldName : String)
    (defaultValue : String := "UNDEFINED") : ValidationResult :=
  if value == .undef || value == .null || value == .str "" then
    { value := defaultValue, isValid := false, fieldName, originalValue := value }
  else if (match value with | .str s => jsTrim s == "" | _ => false) then
    { value := defaultValue, isValid := false, fieldName, originalValue := value }
  else
    { value := jsToString value, isValid := true, fieldName, originalValue := value }

/-! ### The validation tracker (`EDIValidationTracker`) -/

structure InvalidField where
  field : String
  originalValue : JSValue
  replacedWith : String
  deriving DecidableEq, Repr

structure Tracker where
  invalidFields : List InvalidField
  warnings : List String
  isValid : Bool
  deriving DecidableEq, Repr

def Tracker.init : Tracker := ⟨[], [], true⟩

def addValidation (t : Tracker) (r : ValidationResult) : Tracker :=
  if r.isValid then t
  else
    { invalidFields :=
        t.invalidFields ++ [⟨r.fieldName, r.originalValue, r.value⟩],
      warnings := t.warnings,
      isValid := false }

def addWarning (t : Tracker) (message : String) : Tracker :=
  { t with warnings := t.warnings ++ [message] }

structure ValidationSummary where
  isValid : Bool
  invalidFieldCount : Nat
  invalidFields : List InvalidField
  warnings : List String
  hasUndefinedData : Bool
  deriving DecidableEq, Repr

def getValidationSummary (t : Tracker) : ValidationSummary :=
  { isValid := t.isValid,
    invalidFieldCount := t.invalidFields.length,
    invalidFields := t.invalidFields,
    warnings := t.warnings,
    hasUndefinedData := t.invalidFields.length > 0 }

def addValidations (t : Tracker) (rs : List ValidationResult) : Tracker :=
  rs.foldl addValidation t

/-! ### Builder helper functions (closures over the tracker in the source,
tracker-threading functions here) -/

/-- `formatDate(dateString, format)` inside `buildEDIFACTInvoice`: re-sanitise
the (string) input, fall back to `19700101` when it is blank or unparseable
(the latter with a warning), otherwise render `YYYYMMDDHHmmss` for format
`204` and `YYYYMMDD` otherwise. -/
def formatDate (t : Tracker) (dateString : String) (format : String) : String × Tracker :=
  let dv := validateAndSanitizeValue (.str dateString) "date"
  let t := addValidation t dv
  if !dv.isValid then ("19700101", t)
  else
    match jsParseDate dateString with
    | none => ("19700101", addWarning t ("Invalid date format: " ++ dateString))
    | some d =>
        let year := natDecimal d.year
        let month := jsPadStart (natDecimal d.month) 2 '0'
        let day := jsPadStart (natDecimal d.day) 2 '0'
        let hours := jsPadStart (natDecimal d.hour) 2 '0'
        let minutes := jsPadStart (natDecimal d.minute) 2 '0'
        let seconds := jsPadStart (natDecimal d.second) 2 '0'
        if format == "204" then
          (year ++ month ++ day ++ hours ++ minutes ++ seconds, t)
        else if format == "102" then (year ++ month ++ day, t)
        else (year ++ month ++ day, t)

/-- `formatAmount(amount)`: sanitise (default `0.00`), `Number(...)`, and
render with two decimals; `NaN` degrades to `0.00` with a warning. -/
def formatAmount (t : Tracker) (amount : JSValue) : String × Tracker :=
  let av := validateAndSanitizeValue amount "amount" "0.00"
  let t := addValidation t av
  if !av.isValid then ("0.00", t)
  else
    let numAmount := jsNumberOfValue amount
    if jsIsNaN numAmount then
      ("0.00", addWarning t ("Invalid amount format: " ++ jsToString amount))
    else (toFixed2 numAmount, t)

/-- `calculateVATRate(netAmount, taxAmount)`: `0.00` plus a warning when the
net is zero or either operand is NaN, else `(tax/net*100).toFixed(2)`. -/
def calculateVATRate (t : Tracker) (netAmount taxAmount : JSNum) : String × Tracker :=
  if jsNumEq netAmount (.fin (.ofInt 0)) || jsIsNaN netAmount || jsIsNaN taxAmount then
    ("0.00", addWarning t "VAT rate calculation failed due to invalid amounts")
  else (toFixed2 (jsMul (jsDiv taxAmount netAmount) (.fin (.ofInt 100))), t)

/-- `getVATCategory(vatRate)`: parseFloat then map 0/5/20 to Z/L/S, defaulting
to S (NaN also defaults to S, with a warning). -/
def getVATCategory (t : Tracker) (vatRate : String) : String × Tracker :=
  let rate := jsParseFloat vatRate
  if jsIsNaN rate then ("S", addWarning t ("Invalid VAT rate: " ++ vatRate))
  else if jsNumEq rate (.fin (.ofInt 0)) then ("Z", t)
  else if jsNumEq rate (.fin (.ofInt 5)) then ("L", t)
  else if jsNumEq rate (.fin (.ofInt 20)) then ("S", t)
  else ("S", t)

/-- `parseSupplierAddress(supplierAddress)`: sanitise; blank degrades to a
five-part sentinel; fewer than two colon-separated parts records a warning;
the string itself is passed through. -/
def parseSupplierAddress (t : Tracker) (supplierAddress : String) : String × Tracker :=
  let av := validateAndSanitizeValue (.str supplierAddress) "supplierAddress"
  let t := addValidation t av
  if !av.isValid then ("UNDEFINED:UNDEFINED:UNDEFINED:UNDEFINED:UNDEFINED", t)
  else
    let parts := jsSplitChar supplierAddress ':'
    let t :=
      if parts.length < 2 then
        addWarning t "Supplier address format incorrect - using as-is"
      else t
    (supplierAddress, t)

/-! ### Builder inputs -/

structure LineItem where
  referenceId : JSValue
  quantity : JSValue
  price : JSValue
  tax : JSValue
  deriving DecidableEq, Repr

structure Invoice where
  invoiceNumber : JSValue
  issueDate : JSValue
  dueDate : JSValue
  currency : JSValue
  saleOrderNiceId : JSValue
  deriving DecidableEq, Repr

structure SaleOrder where
  niceId : JSValue
  carrierReference : JSValue
  deriving DecidableEq, Repr

structure CsvRow where
  GLN : JSValue
  address : JSValue
  deriving DecidableEq, Repr

structure EDIConfig where
  senderGLN : JSValue
  receiverGLN : JSValue
  buyerGLN : JSValue
  deliveryPointGLN : JSValue
  supplierVAT : JSValue
  supplierAddress : JSValue
  internalVendorNumber : JSValue
  paymentTerms : JSValue
  vendorReference : JSValue
  deriving DecidableEq, Repr

/-- `csvData?.GLN`-style optional chaining: a missing row reads as
`undefined`. -/
def csvField (csv : Option CsvRow) (f : CsvRow → JSValue) : JSValue :=
  match csv with
  | none => .undef
  | some row => f row

/-- The result of the per-line barcode lookup
`requester('get', .../items/{id}/barcodes).then(r => r.data?.[0]?.barcode || 'UNDEFINED').catch(() => 'UNDEFINED')`:
`none` models a failed request or an absent first barcode, `some b` the
barcode string of the first entry. -/
def BarcodeLookup : Type := String → Option String

/-! ### The sanitised upfront field set of `buildEDIFACTInvoice` -/

structure SanitizedVals where
  cSenderGLN : ValidationResult
  cReceiverGLN : ValidationResult
  cBuyerGLN : ValidationResult
  cDeliveryPointGLN : ValidationResult
  cSupplierVAT : ValidationResult
  cSupplierAddress : ValidationResult
  cInternalVendorNumber : ValidationResult
  cPaymentTerms : ValidationResult
  iInvoiceNumber : ValidationResult
  iIssueDate : ValidationResult
  iDueDate : ValidationResult
  iCurrency : ValidationResult
  iSaleOrderNiceId : ValidationResult
  sNiceId : ValidationResult
  sCarrierReference : ValidationResult
  vGLN : ValidationResult
  vAddress : ValidationResult

/-- The upfront sanitisation pass of `buildEDIFACTInvoice`, in source order. -/
def mkSanitizedVals (saleOrder : SaleOrder) (invoice : Invoice)
    (csvData : Option CsvRow) (config : EDIConfig) : SanitizedVals :=
  { cSenderGLN := validateAndSanitizeValue config.senderGLN "config.senderGLN"
    cReceiverGLN := validateAndSanitizeValue config.receiverGLN "config.receiverGLN"
    cBuyerGLN := validateAndSanitizeValue config.buyerGLN "config.buyerGLN"
    cDeliveryPointGLN := validateAndSanitizeValue config.deliveryPointGLN "config.deliveryPointGLN"
    cSupplierVAT := validateAndSanitizeValue config.supplierVAT "config.supplierVAT"
    cSupplierAddress := validateAndSanitizeValue config.supplierAddress "config.supplierAddress"
    cInternalVendorNumber :=
      validateAndSanitizeValue config.internalVendorNumber "config.internalVendorNumber"
    cPaymentTerms := validateAndSanitizeValue config.paymentTerms "config.paymentTerms"
    iInvoiceNumber := validateAndSanitizeValue invoice.invoiceNumber "invoice.invoiceNumber"
    iIssueDate := validateAndSanitizeValue invoice.issueDate "invoice.issueDate"
    iDueDate := validateAndSanitizeValue invoice.dueDate "invoice.dueDate"
    iCurrency := validateAndSanitizeValue invoice.currency "invoice.currency" "GBP"
    iSaleOrderNiceId :=
      validateAndSanitizeValue invoice.saleOrderNiceId "invoice.saleOrderNiceId"
    sNiceId := validateAndSanitizeValue saleOrder.niceId "saleOrder.niceId"
    sCarrierReference :=
      validateAndSanitizeValue saleOrder.carrierReference "saleOrder.carrierReference"
    vGLN := validateAndSanitizeValue (csvField csvData CsvRow.GLN) "csvData.GLN"
    vAddress := validateAndSanitizeValue (csvField csvData CsvRow.address) "csvData.address" }

/-- The upfront `validation.addValidation` calls, in the order the source
performs them (config block, invoice block, sale-order block, csv block). -/
def SanitizedVals.ordered (v : SanitizedVals) : List ValidationResult :=
  [v.cSenderGLN, v.cReceiverGLN, v.cBuyerGLN, v.cDeliveryPointGLN, v.cSupplierVAT,
   v.cSupplierAddress, v.cInternalVendorNumber, v.cPaymentTerms,
   v.iInvoiceNumber, v.iIssueDate, v.iDueDate, v.iCurrency, v.iSaleOrderNiceId,
   v.sNiceId, v.sCarrierReference, v.vGLN, v.vAddress]

/-! ### The per-line-item loop of `buildEDIFACTInvoice` -/

/-- One iteration of the detail-section loop: sanitise the four item fields,
resolve the barcode (an invalid reference id or a failed/empty lookup degrades
to the sentinel and records an invalid field), and emit the LIN, QTY, MOA,
PRI and TAX segments. -/
def buildItems (lookup : BarcodeLookup) : Nat → List LineItem → Tracker →
    List String × Tracker
  | _, [], t => ([], t)
  | idx, item :: rest, t =>
    let iv_referenceId :=
      validateAndSanitizeValue item.referenceId ("item[" ++ natDecimal idx ++ "].referenceId")
    let iv_quantity :=
      validateAndSanitizeValue item.quantity ("item[" ++ natDecimal idx ++ "].quantity") "1"
    let iv_price :=
      validateAndSanitizeValue item.price ("item[" ++ natDecimal idx ++ "].price") "0.00"
    let iv_tax :=
      validateAndSanitizeValue item.tax ("item[" ++ natDecimal idx ++ "].tax") "0.00"
    let t := addValidations t [iv_referenceId, iv_quantity, iv_price, iv_tax]
    let itemCode :=
      if iv_referenceId.isValid then
        match lookup (jsToString item.referenceId) with
        | none => "UNDEFINED"
        | some b => if b == "" then "UNDEFINED" else b
      else "UNDEFINED"
    let t :=
      if itemCode == "UNDEFINED" then
        addValidation t
          { value := "UNDEFINED", isValid := false,
            fieldName := "item[" ++ natDecimal idx ++ "].barcode",
            originalValue := .str "N/A" }
      else t
    let lineNumber := idx + 1
    let linSeg := "LIN+" ++ natDecimal lineNumber ++ "++" ++ itemCode ++ ":EN"
    let qtySeg := "QTY+47:" ++ iv_quantity.value ++ ":EA"
    let moaSeg := "MOA+203:" ++ (formatAmount t (.str iv_price.value)).1
    let t := (formatAmount t (.str iv_price.value)).2
    let unitPrice := jsDiv (jsNumberOfString iv_price.value) (jsNumberOfString iv_quantity.value)
    let priSeg := "PRI+AAA:" ++ (formatAmount t (.num unitPrice)).1
    let t := (formatAmount t (.num unitPrice)).2
    let vatRate :=
      (calculateVATRate t (jsNumberOfString iv_price.value) (jsNumberOfString iv_tax.value)).1
    let t :=
      (calculateVATRate t (jsNumberOfString iv_price.value) (jsNumberOfString iv_tax.value)).2
    let taxSeg := "TAX+7+VAT+++:::" ++ vatRate ++ "+" ++ (getVATCategory t vatRate).1
    let t := (getVATCategory t vatRate).2
    let restPair := buildItems lookup (idx + 1) rest t
    ([linSeg, qtySeg, moaSeg, priSeg, taxSeg] ++ restPair.1, restPair.2)

/-! ### `buildEDIFACTInvoice` (validating variant, src/sale-invoice-handler.js) -/

/-- The line-value totals: `items.reduce((sum, item) => sum + (Number(item.price) || 0), 0)`
and likewise for `tax`. -/
def totalOf (f : LineItem → JSValue) (items : List LineItem) : JSNum :=
  items.foldl (fun sum item => jsAdd sum (jsOrZero (jsNumberOfValue (f item)))) (.fin (.ofInt 0))

/-- The full segment list and final tracker of `buildEDIFACTInvoice`.  Every
segment string and every tracker operation appears in the order the source
executes them; each helper call is written once for its string and once for
its tracker effect (the helpers are pure, so this is the tuple the source
destructures). -/
def buildEDIFACTSegments (saleOrder : SaleOrder) (invoice : Invoice)
    (items : List LineItem) (csvData : Option CsvRow) (config : EDIConfig)
    (lookup : BarcodeLookup) : List String × Tracker :=
  let v := mkSanitizedVals saleOrder invoice csvData config
  let t := addValidations Tracker.init v.ordered
  let t := if items.isEmpty then addWarning t "No items found in invoice" else t
  let totalItemsValue := totalOf LineItem.price items
  let totalTaxValue := totalOf LineItem.tax items
  let totalInvoiceValue := jsAdd totalItemsValue totalTaxValue
  let tsDate := (formatDate t v.iIssueDate.value "102").1
  let t := (formatDate t v.iIssueDate.value "102").2
  let tsDateTime := (formatDate t v.iIssueDate.value "204").1
  let t := (formatDate t v.iIssueDate.value "204").2
  let timestamp := jsSubstringFrom tsDate 2 ++ ":" ++ jsSubstringRange tsDateTime 8 12
  let unbSeg := "UNB+UNOA:3+" ++ v.cSenderGLN.value ++ ":14+" ++ v.cReceiverGLN.value ++
    ":14+" ++ timestamp ++ "+" ++ jsPadStart v.sNiceId.value 7 '0' ++ "++INVOIC++++1"
  let unhSeg := "UNH+1+INVOIC:D:96A:UN:EAN008"
  let orderNumber := jsPadStart v.iInvoiceNumber.value 8 '0'
  let bgmSeg := "BGM+380:::MRCHI+" ++ orderNumber ++ "+9"
  let dtmInvSeg := "DTM+3:" ++ (formatDate t v.iIssueDate.value "204").1 ++ ":204"
  let t := (formatDate t v.iIssueDate.value "204").2
  let taxDate := v.iDueDate.value
  let dtmTaxSeg := "DTM+131:" ++ (formatDate t taxDate "102").1 ++ ":102"
  let t := (formatDate t taxDate "102").2
  let rffOnSegs :=
    if v.iSaleOrderNiceId.value != "" then
      ["RFF+ON:" ++ jsPadStart v.iSaleOrderNiceId.value 8 '0']
    else []
  let rffVnSegs :=
    if jsTruthy config.vendorReference then
      ["RFF+VN:" ++ jsPadStart (jsToString config.vendorReference) 10 '0']
    else []
  let nadBySeg := "NAD+BY+" ++ v.cBuyerGLN.value ++
    "::9+WM. MORRISON SUPERMARKETS PLC:HILMORE HOUSE:GAIN LANE::BD3 7DL"
  let rffVaMorrisonsSeg := "RFF+VA:343475355"
  let nadDpSeg := "NAD+DP+" ++ v.vGLN.value ++ "::9+" ++ v.sCarrierReference.value ++
    ":" ++ v.vAddress.value
  let nadSuSeg := "NAD+SU+" ++ v.cSenderGLN.value ++ "::9+" ++
    (parseSupplierAddress t v.cSupplierAddress.value).1
  let t := (parseSupplierAddress t v.cSupplierAddress.value).2
  let rffVaSupplierSeg := "RFF+VA:" ++ v.cSupplierVAT.value
  let rffIaSeg := "RFF+IA:" ++ v.cInternalVendorNumber.value
  let cuxSeg := "CUX+2:" ++ v.iCurrency.value ++ ":4"
  let patSegs :=
    if v.iDueDate.value != "" then
      ["PAT+1+6:::" ++ v.cPaymentTerms.value,
       "DTM+140:" ++ (formatDate t v.iDueDate.value "102").1 ++ ":102"]
    else []
  let t :=
    if v.iDueDate.value != "" then (formatDate t v.iDueDate.value "102").2 else t
  let itemSegs := (buildItems lookup 0 items t).1
  let t := (buildItems lookup 0 items t).2
  let unsSeg := "UNS+S"
  let cntSeg := "CNT+2:" ++ natDecimal items.length
  let moaTotalLinesSeg := "MOA+79:" ++ (formatAmount t (.num totalItemsValue)).1
  let t := (formatAmount t (.num totalItemsValue)).2
  let moaTaxableSeg := "MOA+125:" ++ (formatAmount t (.num totalItemsValue)).1
  let t := (formatAmount t (.num totalItemsValue)).2
  let moaTaxSeg := "MOA+124:" ++ (formatAmount t (.num totalTaxValue)).1
  let t := (formatAmount t (.num totalTaxValue)).2
  let moaTotalSeg := "MOA+77:" ++ (formatAmount t (.num totalInvoiceValue)).1
  let t := (formatAmount t (.num totalInvoiceValue)).2
  let overallVATRate := (calculateVATRate t totalItemsValue totalTaxValue).1
  let t := (calculateVATRate t totalItemsValue totalTaxValue).2
  let taxSummarySeg := "TAX+7+VAT+++:::" ++ overallVATRate ++ "+" ++
    (getVATCategory t overallVATRate).1
  let t := (getVATCategory t overallVATRate).2
  let moaTaxable2Seg := "MOA+125:" ++ (formatAmount t (.num totalItemsValue)).1
  let t := (formatAmount t (.num totalItemsValue)).2
  let moaTax2Seg := "MOA+124:" ++ (formatAmount t (.num totalTaxValue)).1
  let t := (formatAmount t (.num totalTaxValue)).2
  let segments :=
    [unbSeg, unhSeg, bgmSeg, dtmInvSeg, dtmTaxSeg] ++ rffOnSegs ++ rffVnSegs ++
    [nadBySeg, rffVaMorrisonsSeg, nadDpSeg, nadSuSeg, rffVaSupplierSeg, rffIaSeg, cuxSeg] ++
    patSegs ++ itemSegs ++
    [unsSeg, cntSeg, moaTotalLinesSeg, moaTaxableSeg, moaTaxSeg, moaTotalSeg,
     taxSummarySeg, moaTaxable2Seg, moaTax2Seg]
  let segmentCount := segments.length + 2
  let untSeg := "UNT+" ++ natDecimal segmentCount ++ "+1"
  let unzSeg := "UNZ+1+" ++ jsPadStart v.sNiceId.value 7 '0'
  (segments ++ [untSeg, unzSeg], t)

structure BuildResult where
  ediPayload : String
  validation : ValidationSummary
  deriving DecidableEq, Repr

/-- `buildEDIFACTInvoice(saleOrder, invoice, items, csvData, config)`:
the joined payload (`segments.map(s => s + "'").join('\n')`) plus the
tracker summary. -/
def buildEDIFACTInvoice (saleOrder : SaleOrder) (invoice : Invoice)
    (items : List LineItem) (csvData : Option CsvRow) (config : EDIConfig)
    (lookup : BarcodeLookup) : BuildResult :=
  let (segments, t) := buildEDIFACTSegments saleOrder invoice items csvData config lookup
  { ediPayload := joinNl (segments.map (fun segment => segment ++ "'")),
    validation := getValidationSummary t }

/-! ### The processing ledger (`ProcessingResultsManager`,
src/processing-results-manager.js)

Statuses are strings, as in the source.  The DOM/display work
(`debouncedUpdateDisplay`, animations, filters) has no effect on the ledger
data and is omitted; timestamps (`Date.now()`, `startTime`) are naturals
supplied by the caller.  `results` is a JavaScript object whose keys
(`invoiceId_timestamp`, never array indices) enumerate in insertion order, so
it is modelled as an insertion-ordered association list. -/

structure LedgerStep where
  id : String
  name : String
  status : String
  error : Option String
  data : Option String
  deriving DecidableEq, Repr

structure LedgerResult where
  invoiceId : String
  uniqueKey : String
  status : String
  startTime : Nat
  steps : List LedgerStep
  ediPayload : Option String
  error : Option String
  deriving DecidableEq, Repr

def initialSteps : List LedgerStep :=
  [⟨"invoice", "Invoice data retrieved", "pending", none, none⟩,
   ⟨"items", "Items data retrieved", "pending", none, none⟩,
   ⟨"saleorder", "Sale order data retrieved", "pending", none, none⟩,
   ⟨"edi", "EDI payload generated", "pending", none, none⟩,
   ⟨"transmission", "EDI transmission", "pending", none, none⟩]

structure Ledger where
  results : List (String × LedgerResult)
  processingQueue : List String
  retryAttempts : List (String × Nat)
  deriving DecidableEq, Repr

def Ledger.empty : Ledger := ⟨[], [], []⟩

def ledgerMaxRetries : Nat := 3

/-- Object property assignment: replace in place when the key exists,
append otherwise. -/
def objSet (l : List (String × LedgerResult)) (k : String) (v : LedgerResult) :
    List (String × LedgerResult) :=
  if l.any (fun p => p.1 == k) then
    l.map (fun p => if p.1 == k then (k, v) else p)
  else l ++ [(k, v)]

/-- `Set.prototype.add`. -/
def setAdd (l : List String) (k : String) : List String :=
  if l.contains k then l else l ++ [k]

def mapSet (l : List (String × Nat)) (k : String) (v : Nat) : List (String × Nat) :=
  if l.any (fun p => p.1 == k) then
    l.map (fun p => if p.1 == k then (k, v) else p)
  else l ++ [(k, v)]

def mapGetD (l : List (String × Nat)) (k : String) : Nat :=
  match l.find? (fun p => p.1 == k) with
  | some p => p.2
  | none => 0

/-- Mutate the first element satisfying `p` (the source mutates the object
returned by `Array.prototype.find`). -/
def modifyFirst (p : LedgerStep → Bool) (f : LedgerStep → LedgerStep) :
    List LedgerStep → List LedgerStep
  | [] => []
  | x :: xs => if p x then f x :: xs else x :: modifyFirst p f xs

def Ledger.getAllResults (m : Ledger) : List LedgerResult := m.results.map (·.2)

/-- `cleanupOldProcessingAttempts(invoiceId)`: delete every stored result for
this invoice whose status is not `processing`, dropping each deleted key from
the processing queue and (when anything was deleted) this invoice's retry
counter. -/
def Ledger.cleanupOldProcessingAttempts (m : Ledger) (invoiceId : String) : Ledger :=
  let keysToRemove :=
    (m.results.filter
      (fun p => p.2.invoiceId == invoiceId && p.2.status != "processing")).map (·.1)
  { results := m.results.filter (fun p => !keysToRemove.contains p.1),
    processingQueue := m.processingQueue.filter (fun k => !keysToRemove.contains k),
    retryAttempts :=
      if keysToRemove.isEmpty then m.retryAttempts
      else m.retryAttempts.filter (fun p => !(p.1 == invoiceId)) }

/-- `startInvoiceProcessing(invoiceId)`: clean up old attempts, then insert a
fresh `processing` entry keyed by `invoiceId_timestamp`. -/
def Ledger.startInvoiceProcessing (m : Ledger) (invoiceId : String) (timestamp : Nat) :
    Ledger :=
  let m := m.cleanupOldProcessingAttempts invoiceId
  let uniqueKey := invoiceId ++ "_" ++ natDecimal timestamp
  let result : LedgerResult :=
    { invoiceId, uniqueKey, status := "processing", startTime := timestamp,
      steps := initialSteps, ediPayload := none, error := none }
  { results := objSet m.results uniqueKey result,
    processingQueue := setAdd m.processingQueue uniqueKey,
    retryAttempts := m.retryAttempts }

/-- The "most recent processing result" search shared by `updateStepStatus`,
`completeInvoiceProcessing`, `failInvoiceProcessing`: filter to
`status === 'processing'` entries for the invoice, then `reduce` keeping the
entry with the strictly larger `startTime` (the earlier entry on ties). -/
def Ledger.latestProcessing (m : Ledger) (invoiceId : String) : Option LedgerResult :=
  match m.getAllResults.filter
      (fun r => r.invoiceId == invoiceId && r.status == "processing") with
  | [] => none
  | h :: rest =>
      some (rest.foldl
        (fun latest current =>
          if current.startTime > latest.startTime then current else latest) h)

def jsTruthyOptStr : Option String → Bool
  | none => false
  | some s => s != ""

/-- `updateStepStatus(invoiceId, stepId, status, errorMessage, data)`. -/
def Ledger.updateStepStatus (m : Ledger) (invoiceId stepId status : String)
    (errorMessage : Option String := none) (data : Option String := none) : Ledger :=
  match m.latestProcessing invoiceId with
  | none => m
  | some result =>
    if !(result.steps.any (fun s => s.id == stepId)) then m
    else
      let steps := modifyFirst (fun s => s.id == stepId)
        (fun s =>
          if status == "error" then { s with status, error := errorMessage }
          else if status == "success" then { s with status, data }
          else { s with status })
        result.steps
      let allStepsComplete := steps.all (fun s => s.status == "success")
      let result' :=
        if status == "error" then
          { result with steps, status := "error", error := errorMessage }
        else if status == "success" then
          { result with
              steps
              ediPayload :=
                if stepId == "edi" && jsTruthyOptStr data then data else result.ediPayload
              status := if allStepsComplete then "success" else result.status }
        else if status == "processing" then
          { result with steps, status := "processing" }
        else { result with steps }
      { results := objSet m.results result.uniqueKey result',
        processingQueue :=
          if status == "error" || (status == "success" && allStepsComplete) then
            m.processingQueue.filter (fun k => !(k == result.uniqueKey))
          else m.processingQueue,
        retryAttempts := m.retryAttempts }

/-- `completeInvoiceProcessing(invoiceId, ediPayload)`: force the latest
processing entry to overall `success`, promoting its `pending`/`processing`
steps to `success`. -/
def Ledger.completeInvoiceProcessing (m : Ledger) (invoiceId : String)
    (ediPayload : String) : Ledger :=
  match m.latestProcessing invoiceId with
  | none => m
  | some result =>
    let result' :=
      { result with
          status := "success"
          ediPayload := some ediPayload
          steps := result.steps.map
            (fun s =>
              if s.status == "pending" || s.status == "processing" then
                { s with status := "success" }
              else s) }
    { results := objSet m.results result.uniqueKey result',
      processingQueue := m.processingQueue.filter (fun k => !(k == result.uniqueKey)),
      retryAttempts := m.retryAttempts }

/-- `failInvoiceProcessing(invoiceId, stepId, errorMessage)`: mark the step
`error` through `updateStepStatus`, then force every later step of the same
entry to `not-attempted` (all steps when the step id is unknown, mirroring
the `findIndex === -1` loop) and drop the entry from the processing queue. -/
def Ledger.failInvoiceProcessing (m : Ledger) (invoiceId stepId errorMessage : String) :
    Ledger :=
  match m.latestProcessing invoiceId with
  | none => m
  | some result =>
    let m := m.updateStepStatus invoiceId stepId "error" (some errorMessage) none
    let start :=
      match result.steps.findIdx? (fun s => s.id == stepId) with
      | some j => j + 1
      | none => 0
    { results := m.results.map
        (fun p =>
          if p.1 == result.uniqueKey then
            (p.1,
             { p.2 with steps :=
                (p.2.steps.enum.map
                  (fun q =>
                    if start ≤ q.1 then { q.2 with status := "not-attempted" } else q.2)) })
          else p),
      processingQueue := m.processingQueue.filter (fun k => !(k == result.uniqueKey)),
      retryAttempts := m.retryAttempts }

/-- `retryInvoiceProcessing(invoiceId)` (ledger-state part; the re-dispatch
through `window.processInvoice` is external).  Below the retry cap, bump the
counter and reset the most recent `error` entry: overall status back to
`processing`, `error`/`not-attempted` steps back to `pending`. -/
def Ledger.retryInvoiceProcessing (m : Ledger) (invoiceId : String) : Ledger :=
  let currentRetries := mapGetD m.retryAttempts invoiceId
  if ledgerMaxRetries ≤ currentRetries then m
  else
    let retryAttempts := mapSet m.retryAttempts invoiceId (currentRetries + 1)
    match m.getAllResults.filter
        (fun r => r.invoiceId == invoiceId && r.status == "error") with
    | [] =>
        { results := m.results,
          processingQueue := setAdd m.processingQueue invoiceId,
          retryAttempts }
    | h :: rest =>
      let result := rest.foldl
        (fun latest current =>
          if current.startTime > latest.startTime then current else latest) h
      let result' :=
        { result with
            status := "processing"
            error := none
            steps := result.steps.map
              (fun s =>
                if s.status == "error" || s.status == "not-attempted" then
                  { s with status := "pending", error := none }
                else s) }
      { results := objSet m.results result.uniqueKey result',
        processingQueue := setAdd m.processingQueue result.uniqueKey,
        retryAttempts }

/-- The ledger operations driven by the pipeline and the UI. -/
inductive LedgerOp where
  | start (invoiceId : String) (timestamp : Nat)
  | update (invoiceId stepId status : String) (errorMessage data : Option String)
  | complete (invoiceId ediPayload : String)
  | fail (invoiceId stepId errorMessage : String)
  | retry (invoiceId : String)
  deriving DecidableEq, Repr

def Ledger.applyOp (m : Ledger) : LedgerOp → Ledger
  | .start invoiceId timestamp => m.startInvoiceProcessing invoiceId timestamp
  | .update invoiceId stepId status errorMessage data =>
      m.updateStepStatus invoiceId stepId status errorMessage data
  | .complete invoiceId ediPayload => m.completeInvoiceProcessing invoiceId ediPayload
  | .fail invoiceId stepId errorMessage =>
      m.failInvoiceProcessing invoiceId stepId errorMessage
  | .retry invoiceId => m.retryInvoiceProcessing invoiceId

def Ledger.applyOps (m : Ledger) (ops : List LedgerOp) : Ledger :=
  ops.foldl Ledger.applyOp m

/-! ### The processed-invoice registry (src/main-process-handlers.js)

The persisted `processedInvoices.invoiceIds` array is the state.
`markInvoiceAsProcessed` reads it into a `Set` (dropping duplicates while
keeping first occurrences, as `new Set(array)` does), tests membership, adds
the id, and writes the array back in insertion order. -/

def jsSetOfListAux (seen : List String) : List String → List String
  | [] => []
  | x :: xs => if x ∈ seen then jsSetOfListAux seen xs else x :: jsSetOfListAux (x :: seen) xs

/-- `Array.from(new Set(l))`. -/
def jsSetOfList (l : List String) : List String := jsSetOfListAux [] l

structure MarkResult where
  wasNew : Bool
  stored : List String
  deriving DecidableEq, Repr

/-- `markInvoiceAsProcessed(saleInvoiceId)` acting on the persisted id list;
returns `true` exactly when the id was not present. -/
def markInvoiceAsProcessed (stored : List String) (saleInvoiceId : String) : MarkResult :=
  let invoiceSet := jsSetOfList stored
  let wasAlreadyProcessed := stored.contains saleInvoiceId
  let newIds := if wasAlreadyProcessed then invoiceSet else invoiceSet ++ [saleInvoiceId]
  ⟨!wasAlreadyProcessed, newIds⟩

/-- `getInvoiceProcessingStats().totalProcessed`. -/
def totalProcessed (stored : List String) : Nat := stored.length

/-! ## Claim C7: the sanitizer contract -/

/-- **C7.**  `validateAndSanitizeValue(value, fieldName, default)` returns
`{value: default, isValid: false}` exactly when the input is `undefined`,
`null`, the empty string, or a whitespace-only string (the last two are the
strings whose trim is empty); otherwise it returns `{value: String(value),
isValid: true}`; `originalValue` is preserved in every case.  The embedding is
a total function, which reflects that the source never throws: every branch
either substitutes the default or stringifies. -/
theorem sanitizer_contract (v : JSValue) (f d : String) :
    (((validateAndSanitizeValue v f d).isValid = false) ↔
      (v = .undef ∨ v = .null ∨ ∃ s, v = .str s ∧ jsTrim s = "")) ∧
    ((validateAndSanitizeValue v f d).isValid = false →
      (validateAndSanitizeValue v f d).value = d) ∧
    ((validateAndSanitizeValue v f d).isValid = true →
      (validateAndSanitizeValue v f d).value = jsToString v) ∧
    (validateAndSanitizeValue v f d).originalValue = v := by
  unfold validateAndSanitizeValue
  cases v with
  | undef => simp
  | null => simp
  | num n => simp
  | str s =>
      by_cases h0 : s = ""
      · subst h0
        simp [show jsTrim "" = "" from rfl]
      · by_cases ht : jsTrim s = ""
        · simp [h0, ht]
        · simp [h0, ht, jsToString]

/-- Witness for C7 at concrete inputs: a whitespace-only string is replaced
by the default, and a plain number sanitises to its string form. -/
theorem sanitizer_contract_witness :
    (validateAndSanitizeValue (.str "  ") "invoice.currency" "GBP").isValid = false ∧
    (validateAndSanitizeValue (.str "  ") "invoice.currency" "GBP").value = "GBP" := by
  refine ⟨?_, ?_⟩
  · exact (sanitizer_contract (.str "  ") "invoice.currency" "GBP").1.mpr
      (Or.inr (Or.inr ⟨"  ", rfl, by decide⟩))
  · exact (sanitizer_contract (.str "  ") "invoice.currency" "GBP").2.1
      ((sanitizer_contract (.str "  ") "invoice.currency" "GBP").1.mpr
        (Or.inr (Or.inr ⟨"  ", rfl, by decide⟩)))

/-! ## Claim C8: the validation tracker is monotone -/

inductive TrackerOp where
  | validation (r : ValidationResult)
  | warning (message : String)
  deriving DecidableEq, Repr

def Tracker.applyOp (t : Tracker) : TrackerOp → Tracker
  | .validation r => addValidation t r
  | .warning message => addWarning t message

def Tracker.applyOps (t : Tracker) (ops : List TrackerOp) : Tracker :=
  ops.foldl Tracker.applyOp t

/-- Does an operation record an invalid field? -/
def TrackerOp.isBad : TrackerOp → Bool
  | .validation r => !r.isValid
  | .warning _ => false

theorem applyOps_isValid (ops : List TrackerOp) (t : Tracker) :
    (t.applyOps ops).isValid = (t.isValid && !ops.any TrackerOp.isBad) := by
  induction ops generalizing t with
  | nil => simp [Tracker.applyOps]
  | cons op rest ih =>
      have step : Tracker.applyOps t (op :: rest) = Tracker.applyOps (t.applyOp op) rest := rfl
      rw [step, ih]
      cases op with
      | validation r =>
          by_cases h : r.isValid
          · simp [Tracker.applyOp, addValidation, h, TrackerOp.isBad]
          · simp [Tracker.applyOp, addValidation, h, TrackerOp.isBad]
      | warning m => simp [Tracker.applyOp, addWarning, TrackerOp.isBad]

/-- The invalid fields recorded by a run are the initial ones plus one entry
per invalid validation, in order. -/
def badFields (ops : List TrackerOp) : List InvalidField :=
  ops.filterMap fun op =>
    match op with
    | .validation r => if r.isValid then none else some ⟨r.fieldName, r.originalValue, r.value⟩
    | .warning _ => none

theorem applyOps_invalidFields (ops : List TrackerOp) (t : Tracker) :
    (t.applyOps ops).invalidFields = t.invalidFields ++ badFields ops := by
  induction ops generalizing t with
  | nil => simp [Tracker.applyOps, badFields]
  | cons op rest ih =>
      cases op with
      | validation r =>
          simp only [Tracker.applyOps, List.foldl_cons] at *
          rw [show Tracker.applyOp t (.validation r) = addValidation t r from rfl, ih]
          by_cases h : r.isValid <;>
            simp [addValidation, h, badFields, List.filterMap_cons]
      | warning m =>
          simp only [Tracker.applyOps, List.foldl_cons] at *
          rw [show Tracker.applyOp t (.warning m) = addWarning t m from rfl, ih]
          simp [addWarning, badFields, List.filterMap_cons]

/-- **C8.**  Over any sequence of `addValidation`/`addWarning` calls starting
from a fresh `EDIValidationTracker`: `isValid` starts `true`; after the run it
is `false` exactly when some recorded validation was invalid; it is permanent
(once a prefix makes it false, the whole run is false); and
`getValidationSummary().hasUndefinedData` is true exactly when at least one
invalid field was recorded. -/
theorem tracker_monotone (ops : List TrackerOp) :
    Tracker.init.isValid = true ∧
    ((Tracker.init.applyOps ops).isValid = false ↔
      ∃ r, TrackerOp.validation r ∈ ops ∧ r.isValid = false) ∧
    (∀ pre post, ops = pre ++ post → (Tracker.init.applyOps pre).isValid = false →
      (Tracker.init.applyOps ops).isValid = false) ∧
    ((getValidationSummary (Tracker.init.applyOps ops)).hasUndefinedData = true ↔
      ∃ r, TrackerOp.validation r ∈ ops ∧ r.isValid = false) := by
  have hbad : (ops.any TrackerOp.isBad = true) ↔
      ∃ r, TrackerOp.validation r ∈ ops ∧ r.isValid = false := by
    rw [List.any_eq_true]
    constructor
    · rintro ⟨op, hop, hbad⟩
      cases op with
      | validation r =>
          exact ⟨r, hop, by simpa [TrackerOp.isBad] using hbad⟩
      | warning m => simp [TrackerOp.isBad] at hbad
    · rintro ⟨r, hr, hbad⟩
      exact ⟨.validation r, hr, by simp [TrackerOp.isBad, hbad]⟩
  refine ⟨rfl, ?_, ?_, ?_⟩
  · rw [applyOps_isValid]
    simpa [Tracker.init] using hbad
  · intro pre post hsplit hpre
    subst hsplit
    rw [applyOps_isValid] at hpre ⊢
    simp only [Tracker.init, Bool.true_and, Bool.not_eq_false'] at hpre ⊢
    rw [List.any_append, hpre, Bool.true_or]
  · have h1 := applyOps_invalidFields ops Tracker.init
    simp only [getValidationSummary]
    rw [h1]
    simp only [Tracker.init, List.nil_append, gt_iff_lt, decide_eq_true_eq,
      List.length_pos]
    constructor
    · intro h
      rcases List.exists_mem_of_ne_nil _ h with ⟨x, hx⟩
      rcases List.mem_filterMap.mp hx with ⟨op, hop, heq⟩
      cases op with
      | validation r =>
          by_cases hv : r.isValid
          · simp [badFields, hv] at heq
          · exact ⟨r, hop, by simpa using hv⟩
      | warning m => simp [badFields] at heq
    · rintro ⟨r, hr, hbadr⟩
      intro hnil
      have : (⟨r.fieldName, r.originalValue, r.value⟩ : InvalidField) ∈ badFields ops :=
        List.mem_filterMap.mpr ⟨.validation r, hr, by simp [hbadr]⟩
      rw [hnil] at this
      simp at this

/-- Witness for C8: a run with one valid validation, one warning, one invalid
validation ends invalid with `hasUndefinedData`, applying the theorem at that
concrete operation list. -/
theorem tracker_monotone_witness :
    (Tracker.init.applyOps
      [.validation ⟨"x", true, "f", .str "x"⟩, .warning "w",
       .validation ⟨"UNDEFINED", false, "g", .undef⟩]).isValid = false := by
  exact (tracker_monotone
    [.validation ⟨"x", true, "f", .str "x"⟩, .warning "w",
     .validation ⟨"UNDEFINED", false, "g", .undef⟩]).2.1.mpr
    ⟨⟨"UNDEFINED", false, "g", .undef⟩, by simp, rfl⟩

/-! ## Claim C9: the VAT category mapping -/

/-- **C9.**  `getVATCategory` maps a parsed VAT rate of `0` to the zero-rate
code `Z`, `5` to the reduced code `L`, `20` to the standard code `S`, and any
other parsed value (including `17.5`) as well as an unparseable (NaN) rate,
to the standard code `S`.  Rates are compared by numeric (`===`) value, as the
source does; the final conjuncts instantiate the documented oddballs `"17.5"`
and `"NaN"` directly. -/
theorem vat_category_mapping (t : Tracker) (s : String) :
    (jsNumEq (jsParseFloat s) (.fin (.ofInt 0)) = true → (getVATCategory t s).1 = "Z") ∧
    (jsNumEq (jsParseFloat s) (.fin (.ofInt 5)) = true → (getVATCategory t s).1 = "L") ∧
    (jsNumEq (jsParseFloat s) (.fin (.ofInt 20)) = true → (getVATCategory t s).1 = "S") ∧
    (jsNumEq (jsParseFloat s) (.fin (.ofInt 0)) = false →
      jsNumEq (jsParseFloat s) (.fin (.ofInt 5)) = false → (getVATCategory t s).1 = "S") ∧
    (jsIsNaN (jsParseFloat s) = true → (getVATCategory t s).1 = "S") ∧
    (getVATCategory t "17.5").1 = "S" ∧ (getVATCategory t "NaN").1 = "S" ∧
    (getVATCategory t "0.00").1 = "Z" ∧ (getVATCategory t "5.00").1 = "L" ∧
    (getVATCategory t "20.00").1 = "S" := by
  have base : ∀ u : String,
      (getVATCategory t u).1 =
        (if jsIsNaN (jsParseFloat u) then "S"
         else if jsNumEq (jsParseFloat u) (.fin (.ofInt 0)) then "Z"
         else if jsNumEq (jsParseFloat u) (.fin (.ofInt 5)) then "L"
         else if jsNumEq (jsParseFloat u) (.fin (.ofInt 20)) then "S" else "S") := by
    intro u
    dsimp only [getVATCategory]
    by_cases h1 : jsIsNaN (jsParseFloat u) <;>
      by_cases h2 : jsNumEq (jsParseFloat u) (.fin (.ofInt 0)) <;>
        by_cases h3 : jsNumEq (jsParseFloat u) (.fin (.ofInt 5)) <;>
          by_cases h4 : jsNumEq (jsParseFloat u) (.fin (.ofInt 20)) <;>
            simp [h1, h2, h3, h4]
  have hnn : ∀ r : JSNum, ∀ v : JSRat, jsNumEq r (.fin v) = true → jsIsNaN r = false := by
    intro r v h
    cases r <;> simp_all [jsNumEq, jsIsNaN]
  have hdenpos : ∀ q : JSRat, jsParseFloat s = .fin q → 0 < q.den := by
    intro q h
    unfold jsParseFloat at h
    dsimp only at h
    repeat' split at h
    all_goals simp_all
    all_goals (subst h; positivity)
  have hdistinct : ∀ a b : Int, a ≠ b →
      jsNumEq (jsParseFloat s) (.fin (.ofInt a)) = true →
      jsNumEq (jsParseFloat s) (.fin (.ofInt b)) = false := by
    intro a b hab h
    cases hp : jsParseFloat s with
    | fin q =>
        have hden : (q.den : Int) ≠ 0 := by
          have := hdenpos q hp
          omega
        rw [hp] at h
        simp only [jsNumEq, JSRat.eqv, JSRat.ofInt, beq_iff_eq, beq_eq_false_iff_ne,
          ne_eq] at h ⊢
        intro hb
        exact hab (mul_right_cancel₀ hden (h.symm.trans hb))
    | nan => rw [hp] at h; simp [jsNumEq] at h
    | inf => rw [hp] at h; simp [jsNumEq] at h
    | ninf => rw [hp] at h; simp [jsNumEq] at h
  refine ⟨?_, ?_, ?_, ?_, ?_, ?_, ?_, ?_, ?_, ?_⟩
  · intro h; rw [base s, hnn _ _ h, h]; simp
  · intro h
    rw [base s, hnn _ _ h, h, hdistinct 5 0 (by decide) h]
    simp
  · intro h
    rw [base s, hnn _ _ h, h, hdistinct 20 0 (by decide) h, hdistinct 20 5 (by decide) h]
    simp
  · intro h0 h5
    rw [base s]
    by_cases h1 : jsIsNaN (jsParseFloat s) <;> simp [h1, h0, h5]
  · intro h; rw [base s, h]; simp
  · rw [base "17.5"]; decide
  · rw [base "NaN"]; decide
  · rw [base "0.00"]; decide
  · rw [base "5.00"]; decide
  · rw [base "20.00"]; decide

/-- Witness for C9: the theorem applied at the rate string `"17.50"` that the
per-line tax segments actually produce for a 17.5% line. -/
theorem vat_category_mapping_witness :
    (getVATCategory Tracker.init "17.50").1 = "S" := by
  refine (vat_category_mapping Tracker.init "17.50").2.2.2.1 ?_ ?_
  · decide
  · decide

/-! ## Claim C6: registry idempotence -/

theorem mem_jsSetOfListAux (a : String) (l seen : List String) :
    a ∈ jsSetOfListAux seen l ↔ a ∈ l ∧ a ∉ seen := by
  induction l generalizing seen with
  | nil => simp [jsSetOfListAux]
  | cons x xs ih =>
      rw [jsSetOfListAux]
      by_cases hx : x ∈ seen
      · rw [if_pos hx, ih seen]
        constructor
        · rintro ⟨h1, h2⟩
          exact ⟨List.mem_cons_of_mem _ h1, h2⟩
        · rintro ⟨hmem, h2⟩
          rcases List.mem_cons.mp hmem with rfl | h1
          · exact absurd hx h2
          · exact ⟨h1, h2⟩
      · rw [if_neg hx]
        constructor
        · intro hmem
          rcases List.mem_cons.mp hmem with rfl | hmem
          · exact ⟨List.mem_cons_self _ _, hx⟩
          · rcases (ih (x :: seen)).mp hmem with ⟨h1, h2⟩
            exact ⟨List.mem_cons_of_mem _ h1, fun hs => h2 (List.mem_cons_of_mem _ hs)⟩
        · rintro ⟨hmem, hns⟩
          rcases List.mem_cons.mp hmem with rfl | hmem
          · exact List.mem_cons_self _ _
          · by_cases hax : a = x
            · subst hax
              exact List.mem_cons_self _ _
            · refine List.mem_cons_of_mem _ ((ih (x :: seen)).mpr ⟨hmem, fun hs => ?_⟩)
              rcases List.mem_cons.mp hs with h1 | h1
              · exact hax h1
              · exact hns h1

theorem nodup_jsSetOfListAux (l seen : List String) : (jsSetOfListAux seen l).Nodup := by
  induction l generalizing seen with
  | nil => simp [jsSetOfListAux]
  | cons x xs ih =>
      by_cases hx : x ∈ seen
      · rw [jsSetOfListAux, if_pos hx]; exact ih seen
      · rw [jsSetOfListAux, if_neg hx]
        refine List.nodup_cons.mpr ⟨fun hmem => ?_, ih (x :: seen)⟩
        exact ((mem_jsSetOfListAux x xs (x :: seen)).mp hmem).2 (List.mem_cons_self x seen)

theorem mem_jsSetOfList (a : String) (l : List String) : a ∈ jsSetOfList l ↔ a ∈ l := by
  rw [jsSetOfList, mem_jsSetOfListAux]
  simp

/-- **C6.**  For every id `x` not yet in the persisted registry, the first
`markInvoiceAsProcessed(x)` returns `true`; for every registry state that
contains `x` (as every later state does, since marking preserves membership)
a call returns `false` and leaves the stored set unchanged up to the `Set`
round-trip; the stored list never holds duplicates, and
`getInvoiceProcessingStats().totalProcessed` counts exactly one entry for the
id: it is one more than the deduplicated prior count after the first call and
stays equal to it on every repeat call. -/
theorem registry_idempotent (stored : List String) (x : String) (h : x ∉ stored) :
    (markInvoiceAsProcessed stored x).wasNew = true ∧
    x ∈ (markInvoiceAsProcessed stored x).stored ∧
    (markInvoiceAsProcessed stored x).stored.Nodup ∧
    totalProcessed (markInvoiceAsProcessed stored x).stored
      = totalProcessed (jsSetOfList stored) + 1 ∧
    (∀ l : List String, x ∈ l →
      (markInvoiceAsProcessed l x).wasNew = false ∧
      (markInvoiceAsProcessed l x).stored = jsSetOfList l ∧
      totalProcessed (markInvoiceAsProcessed l x).stored
        = totalProcessed (jsSetOfList l)) ∧
    (∀ l : List String, ∀ y : String, x ∈ l → x ∈ (markInvoiceAsProcessed l y).stored) := by
  refine ⟨?_, ?_, ?_, ?_, ?_, ?_⟩
  · simp [markInvoiceAsProcessed, h]
  · simp [markInvoiceAsProcessed, h]
  · have hform : (markInvoiceAsProcessed stored x).stored = jsSetOfList stored ++ [x] := by
      simp [markInvoiceAsProcessed, h]
    rw [hform]
    refine List.Nodup.append (nodup_jsSetOfListAux stored []) (List.nodup_singleton x) ?_
    intro a ha hax
    rcases List.mem_singleton.mp hax with rfl
    exact h ((mem_jsSetOfList a stored).mp ha)
  · simp [markInvoiceAsProcessed, h, totalProcessed, jsSetOfList]
  · intro l hl
    simp [markInvoiceAsProcessed, hl, totalProcessed]
  · intro l y hl
    by_cases hc : y ∈ l
    · have hform : (markInvoiceAsProcessed l y).stored = jsSetOfList l := by
        simp [markInvoiceAsProcessed, hc]
      rw [hform]
      exact (mem_jsSetOfList x l).mpr hl
    · have hform : (markInvoiceAsProcessed l y).stored = jsSetOfList l ++ [y] := by
        simp [markInvoiceAsProcessed, hc]
      rw [hform]
      exact List.mem_append_left _ ((mem_jsSetOfList x l).mpr hl)

/-- Witness for C6: marking a fresh id returns `true`, marking it again
returns `false` with an unchanged store. -/
theorem registry_idempotent_witness :
    (markInvoiceAsProcessed ["a", "b"] "inv42").wasNew = true ∧
    (markInvoiceAsProcessed ["a", "b", "inv42"] "inv42").wasNew = false ∧
    (markInvoiceAsProcessed ["a", "b", "inv42"] "inv42").stored = ["a", "b", "inv42"] := by
  have h := registry_idempotent ["a", "b"] "inv42" (by decide)
  refine ⟨h.1, (h.2.2.2.2.1 ["a", "b", "inv42"] (by decide)).1, ?_⟩
  rw [(h.2.2.2.2.1 ["a", "b", "inv42"] (by decide)).2.1]
  decide

/-! ## Claim C10: `startInvoiceProcessing` purges stale attempts first -/

theorem mem_objSet (l : List (String × LedgerResult)) (k : String) (v : LedgerResult)
    (p : String × LedgerResult) (hp : p ∈ objSet l k v) :
    p = (k, v) ∨ (p ∈ l ∧ p.1 ≠ k) := by
  unfold objSet at hp
  by_cases hany : l.any (fun q => q.1 == k)
  · rw [if_pos hany] at hp
    rcases List.mem_map.mp hp with ⟨q, hq, heq⟩
    by_cases hqk : q.1 == k
    · left
      rw [if_pos hqk] at heq
      exact heq.symm
    · right
      rw [if_neg hqk] at heq
      subst heq
      exact ⟨hq, by simpa using hqk⟩
  · rw [if_neg hany] at hp
    rcases List.mem_append.mp hp with hmem | hmem
    · right
      refine ⟨hmem, fun hk => ?_⟩
      exact hany (List.any_eq_true.mpr ⟨p, hmem, by simp [hk]⟩)
    · left
      simpa using hmem

/-- **C10.**  `startInvoiceProcessing(invoiceId)` first deletes every stored
result for the same invoice id whose status is not `processing` (removing its
key from the processing queue and, when any such entry existed, clearing the
invoice's retry counter) and then inserts the fresh `processing` entry, so
immediately after it returns every ledger entry carrying that invoice id —
the new one and any survivors — has status `processing`. -/
theorem start_purges_stale (m : Ledger) (invoiceId : String) (timestamp : Nat) :
    (∀ p ∈ (m.startInvoiceProcessing invoiceId timestamp).results,
        p.2.invoiceId = invoiceId → p.2.status = "processing") ∧
    (∀ p ∈ m.results, p.2.invoiceId = invoiceId → p.2.status ≠ "processing" →
        p.1 ≠ invoiceId ++ "_" ++ natDecimal timestamp →
        (∀ q ∈ (m.startInvoiceProcessing invoiceId timestamp).results, q.1 ≠ p.1) ∧
        p.1 ∉ (m.startInvoiceProcessing invoiceId timestamp).processingQueue) ∧
    ((∃ p ∈ m.results, p.2.invoiceId = invoiceId ∧ p.2.status ≠ "processing") →
        ∀ q ∈ (m.startInvoiceProcessing invoiceId timestamp).retryAttempts,
          q.1 ≠ invoiceId) := by
  set key := invoiceId ++ "_" ++ natDecimal timestamp with hkey
  set removed := (m.results.filter
      (fun p => p.2.invoiceId == invoiceId && p.2.status != "processing")).map
      (fun p => p.1) with hremoved
  have hremoved_mem : ∀ p ∈ m.results, p.2.invoiceId = invoiceId →
      p.2.status ≠ "processing" → p.1 ∈ removed := by
    intro p hp h1 h2
    rw [hremoved]
    exact List.mem_map.mpr ⟨p, List.mem_filter.mpr ⟨hp, by simp [h1, h2]⟩, rfl⟩
  refine ⟨?_, ?_, ?_⟩
  · intro p hp hid
    unfold Ledger.startInvoiceProcessing at hp
    rcases mem_objSet _ _ _ p hp with heq | ⟨hmem, hne⟩
    · rw [heq]
    · unfold Ledger.cleanupOldProcessingAttempts at hmem
      rcases List.mem_filter.mp hmem with ⟨hmem2, hkeep⟩
      by_cases hst : p.2.status = "processing"
      · exact hst
      · exfalso
        have : p.1 ∈ removed := hremoved_mem p hmem2 hid hst
        simp only [← hremoved] at hkeep
        simp [List.contains] at hkeep
        exact absurd this hkeep
  · intro p hp hid hst hnk
    constructor
    · intro q hq
      unfold Ledger.startInvoiceProcessing at hq
      rcases mem_objSet _ _ _ q hq with heq | ⟨hmem, hne⟩
      · rw [heq]
        exact fun hcontra => hnk hcontra.symm
      · unfold Ledger.cleanupOldProcessingAttempts at hmem
        rcases List.mem_filter.mp hmem with ⟨hmem2, hkeep⟩
        intro hcontra
        have hinrem : p.1 ∈ removed := hremoved_mem p hp hid hst
        rw [← hcontra] at hinrem
        simp only [← hremoved] at hkeep
        simp [List.contains] at hkeep
        exact absurd hinrem hkeep
    · intro hq
      simp only [Ledger.startInvoiceProcessing, setAdd] at hq
      have hinrem : p.1 ∈ removed := hremoved_mem p hp hid hst
      have hqueue : p.1 ∉ (m.cleanupOldProcessingAttempts invoiceId).processingQueue := by
        unfold Ledger.cleanupOldProcessingAttempts
        intro hmem
        rcases List.mem_filter.mp hmem with ⟨_, hkeep⟩
        simp only [← hremoved] at hkeep
        simp [List.contains] at hkeep
        exact absurd hinrem hkeep
      by_cases hc : (m.cleanupOldProcessingAttempts invoiceId).processingQueue.contains key
      · rw [if_pos hc] at hq
        exact hqueue hq
      · rw [if_neg hc] at hq
        rcases List.mem_append.mp hq with hmem | hmem
        · exact hqueue hmem
        · exact hnk (List.mem_singleton.mp hmem)
  · rintro ⟨p, hp, hid, hst⟩ q hq
    unfold Ledger.startInvoiceProcessing at hq
    unfold Ledger.cleanupOldProcessingAttempts at hq
    have hne : ¬ removed.isEmpty := by
      have : p.1 ∈ removed := hremoved_mem p hp hid hst
      intro hemp
      rw [List.isEmpty_iff] at hemp
      rw [hemp] at this
      simp at this
    simp only [← hremoved] at hq
    rw [if_neg hne] at hq
    rcases List.mem_filter.mp hq with ⟨_, hkeep⟩
    simpa using hkeep

/-- Witness for C10: after failing invoice 9's first attempt and starting a
second one, the theorem applied to the fresh entry (membership and id
discharged by `decide`) yields its `processing` status. -/
theorem start_purges_stale_witness :
    (("9_2",
      ({ invoiceId := "9", uniqueKey := "9_2", status := "processing", startTime := 2,
         steps := initialSteps, ediPayload := none, error := none } : LedgerResult)) :
        String × LedgerResult).2.status = "processing" := by
  exact (start_purges_stale
      ((Ledger.empty.startInvoiceProcessing "9" 1).failInvoiceProcessing "9" "edi" "e")
      "9" 2).1
    ("9_2",
      { invoiceId := "9", uniqueKey := "9_2", status := "processing", startTime := 2,
        steps := initialSteps, ediPayload := none, error := none })
    (by decide) (by decide)

/-! ## Concrete build fixtures

A fully-populated, well-formed input set (used to exhibit the actual behaviour
of `buildEDIFACTInvoice` at concrete inputs), and variants with one deliberate
defect each. -/

def sampleSaleOrder : SaleOrder := ⟨.str "12345", .str "STORE42"⟩

def sampleInvoice : Invoice :=
  ⟨.str "30942", .str "2025-03-10", .str "2025-04-20", .str "GBP", .str "12345"⟩

def sampleItems : List LineItem :=
  [⟨.str "ref1", .str "2", .str "10.00", .str "2.00"⟩,
   ⟨.str "ref2", .str "1", .str "5.00", .str "0"⟩]

def sampleCsv : Option CsvRow := some ⟨.str "5099999999999", .str "SOME ADDR"⟩

def sampleConfig : EDIConfig :=
  ⟨.str "5011111111111", .str "5010251000006", .str "5010251000006",
   .str "5033333333333", .str "GB123456789",
   .str "ACME LTD:1 HIGH ST:LEEDS:WYORKS:LS1 1AA", .str "V001", .str "30",
   .str "12345"⟩

def sampleLookup : BarcodeLookup := fun _ => some "5000000000001"

/-! ## Claim C2: the UNT segment count -/

/-- The spec's counting rule: the segments of a payload are its
newline-separated (apostrophe-terminated) lines. -/
def payloadLines (payload : String) : List String := splitCharAux '\n' payload.data

def countPayloadSegments (payload : String) : Nat := (payloadLines payload).length

/-- The numeral carried by the `UNT+` segment of a payload. -/
def untNumber (payload : String) : Option Nat :=
  match (payloadLines payload).find? (fun l => l.data.take 4 = "UNT+".data) with
  | none => none
  | some l => some (digitsVal ((l.data.drop 4).takeWhile Char.isDigit))

set_option maxRecDepth 100000 in
/-- **C2 counterexample.**  On a fully valid two-line invoice the generated
payload has 37 apostrophe-terminated, newline-joined segments and its `UNT+`
segment carries exactly 37 — the total segment count itself, not the total
plus 2 as the claim states. -/
theorem unt_count_counterexample :
    untNumber (buildEDIFACTInvoice sampleSaleOrder sampleInvoice sampleItems
      sampleCsv sampleConfig sampleLookup).ediPayload = some 37 ∧
    countPayloadSegments (buildEDIFACTInvoice sampleSaleOrder sampleInvoice sampleItems
      sampleCsv sampleConfig sampleLookup).ediPayload = 37 ∧
    untNumber (buildEDIFACTInvoice sampleSaleOrder sampleInvoice sampleItems
      sampleCsv sampleConfig sampleLookup).ediPayload ≠
      some (countPayloadSegments (buildEDIFACTInvoice sampleSaleOrder sampleInvoice
        sampleItems sampleCsv sampleConfig sampleLookup).ediPayload + 2) := by
  refine ⟨by decide, by decide, by decide⟩

/-! ## Claim C4: the tax-point DTM segment -/

set_option maxRecDepth 100000 in
/-- **C4 counterexample.**  The validating `buildEDIFACTInvoice` takes no
tax-point date at all (its config has no such field), so per the claim the
qualifier-131 DTM segment would have to fall back to the invoice issue date;
instead the source assigns `taxDate = invoiceValidations.dueDate.value`, and
the emitted segment carries the due date.  Concretely: issue date 2025-03-10,
due date 2025-04-20, and the fifth segment is `DTM+131:20250420:102`, not the
issue-date rendering `DTM+131:20250310:102`. -/
theorem taxpoint_counterexample :
    sampleInvoice.issueDate = .str "2025-03-10" ∧
    sampleInvoice.dueDate = .str "2025-04-20" ∧
    (formatDate Tracker.init "2025-03-10" "102").1 = "20250310" ∧
    (buildEDIFACTSegments sampleSaleOrder sampleInvoice sampleItems sampleCsv
      sampleConfig sampleLookup).1[4]? = some "DTM+131:20250420:102" ∧
    (buildEDIFACTSegments sampleSaleOrder sampleInvoice sampleItems sampleCsv
      sampleConfig sampleLookup).1[4]? ≠
      some ("DTM+131:" ++ (formatDate Tracker.init "2025-03-10" "102").1 ++ ":102") := by
  refine ⟨rfl, rfl, by decide, by decide, by decide⟩

/-! ## Claim C5: missing versus non-numeric line amounts -/

def sampleItemsNullPrice : List LineItem :=
  [⟨.str "ref1", .str "2", .null, .str "0"⟩]

set_option maxRecDepth 100000 in
/-- **C5 counterexample.**  A line item whose `price` is missing (`null`) does
not merely produce a warning: the sanitizer substitution is recorded as the
invalid field `item[0].price`, so `hasUndefinedData` is `true` and the
document — although fully built, with the missing price coerced to 0 in every
total — is gated as containing undefined data, not "gated as valid" as the
claim states. -/
theorem missing_price_counterexample :
    (buildEDIFACTInvoice sampleSaleOrder sampleInvoice sampleItemsNullPrice
      sampleCsv sampleConfig sampleLookup).validation.hasUndefinedData = true ∧
    ((buildEDIFACTInvoice sampleSaleOrder sampleInvoice sampleItemsNullPrice
      sampleCsv sampleConfig sampleLookup).validation.invalidFields.map
        InvalidField.field) = ["item[0].price"] ∧
    totalOf LineItem.price sampleItemsNullPrice = .fin (.ofInt 0) ∧
    "MOA+79:0.00" ∈ (buildEDIFACTSegments sampleSaleOrder sampleInvoice
      sampleItemsNullPrice sampleCsv sampleConfig sampleLookup).1 ∧
    untNumber (buildEDIFACTInvoice sampleSaleOrder sampleInvoice sampleItemsNullPrice
      sampleCsv sampleConfig sampleLookup).ediPayload = some 32 := by
  refine ⟨by decide, by decide, by decide, by decide, by decide⟩

/-! ## Claim C3: ledger step monotonicity -/

/-- **C3 counterexample.**  Two concrete ledger traces violate the claim as
stated.  (a) Marking the `items` step `error` through `updateStepStatus`
forces the overall status to `error` but leaves every later step `pending`,
not `not-attempted` (only `failInvoiceProcessing` propagates).  (b) Setting
the `transmission` step to `not-attempted` while processing and then calling
`completeInvoiceProcessing` yields overall `success` although the
`transmission` step never succeeded. -/
theorem ledger_counterexample :
    (((Ledger.empty.startInvoiceProcessing "1" 0).updateStepStatus "1" "items" "error"
        (some "boom") none).results.map
      (fun p => (p.2.status, p.2.steps.map LedgerStep.status))) =
      [("error", ["pending", "error", "pending", "pending", "pending"])] ∧
    ((((Ledger.empty.startInvoiceProcessing "2" 0).updateStepStatus "2" "transmission"
        "not-attempted" none none).completeInvoiceProcessing "2" "PAY").results.map
      (fun p => (p.2.status, p.2.steps.map LedgerStep.status))) =
      [("success", ["success", "success", "success", "success", "not-attempted"])] := by
  refine ⟨by decide, by decide⟩

/-! ## Claim C1: valid inputs and the UNDEFINED sentinel -/

/-- The claim's input condition on one sanitised field: present and non-empty
(not undefined, null, empty, or whitespace-only). -/
def fieldPresent : JSValue → Bool
  | .undef => false
  | .null => false
  | .str s => jsTrim s != ""
  | .num _ => true

/-- The claim's input condition over every field the builder passes through
the sanitizer. -/
def allSanitizedFieldsPresent (saleOrder : SaleOrder) (invoice : Invoice)
    (items : List LineItem) (csvData : Option CsvRow) (config : EDIConfig) : Bool :=
  fieldPresent config.senderGLN && fieldPresent config.receiverGLN &&
  fieldPresent config.buyerGLN && fieldPresent config.deliveryPointGLN &&
  fieldPresent config.supplierVAT && fieldPresent config.supplierAddress &&
  fieldPresent config.internalVendorNumber && fieldPresent config.paymentTerms &&
  fieldPresent invoice.invoiceNumber && fieldPresent invoice.issueDate &&
  fieldPresent invoice.dueDate && fieldPresent invoice.currency &&
  fieldPresent invoice.saleOrderNiceId &&
  fieldPresent saleOrder.niceId && fieldPresent saleOrder.carrierReference &&
  fieldPresent (csvField csvData CsvRow.GLN) &&
  fieldPresent (csvField csvData CsvRow.address) &&
  items.all (fun item => fieldPresent item.referenceId && fieldPresent item.quantity &&
    fieldPresent item.price && fieldPresent item.tax)

/-- The claim's barcode condition: the lookup returns a barcode string for
every line item. -/
def lookupReturnsString (items : List LineItem) (lookup : BarcodeLookup) : Bool :=
  items.all (fun item => (lookup (jsToString item.referenceId)).isSome)

/-- `sampleConfig` with the sender GLN set to the non-empty, non-blank string
`"UNDEFINED"` — a value the sanitizer accepts verbatim. -/
def undefinedGLNConfig : EDIConfig :=
  ⟨.str "UNDEFINED", .str "5010251000006", .str "5010251000006",
   .str "5033333333333", .str "GB123456789",
   .str "ACME LTD:1 HIGH ST:LEEDS:WYORKS:LS1 1AA", .str "V001", .str "30",
   .str "12345"⟩

set_option maxRecDepth 200000 in
/-- **C1 counterexample.**  With every sanitised field present and non-empty
and the barcode condition vacuously satisfied (no line items), a sender GLN
whose literal text is `"UNDEFINED"` passes the sanitizer, so
`validation.hasUndefinedData` is `false` — yet the payload contains the
substring `UNDEFINED`, contradicting the claim's conclusion. -/
theorem undefined_literal_counterexample :
    allSanitizedFieldsPresent sampleSaleOrder sampleInvoice [] sampleCsv
      undefinedGLNConfig = true ∧
    lookupReturnsString [] sampleLookup = true ∧
    (buildEDIFACTInvoice sampleSaleOrder sampleInvoice [] sampleCsv
      undefinedGLNConfig sampleLookup).validation.hasUndefinedData = false ∧
    "UNDEFINED".data <:+: (buildEDIFACTInvoice sampleSaleOrder sampleInvoice []
      sampleCsv undefinedGLNConfig sampleLookup).ediPayload.data := by
  refine ⟨by decide, by decide, by decide,
    ⟨"UNB+UNOA:3+".data,
     (buildEDIFACTInvoice sampleSaleOrder sampleInvoice [] sampleCsv
       undefinedGLNConfig sampleLookup).ediPayload.data.drop 20, by decide⟩⟩

/-! ## Substring machinery

Decomposition of an infix occurrence across an append, and the three glue
rules used to prove that generated segments contain no occurrence of a
pattern: a left part ending in a character outside the pattern, a right part
starting with one, or a part made entirely of characters outside the
pattern. -/

theorem prefix_split {α : Type} (m x y : List α) (h : m <+: x ++ y) :
    m <+: x ∨ ∃ m₂, m = x ++ m₂ ∧ m₂ <+: y := by
  induction x generalizing m with
  | nil =>
      right
      exact ⟨m, rfl, by simpa using h⟩
  | cons a x ih =>
      cases m with
      | nil => left; exact List.nil_prefix
      | cons b m' =>
          rw [List.cons_append] at h
          rcases List.cons_prefix_cons.mp h with ⟨rfl, h'⟩
          rcases ih m' h' with h1 | ⟨m₂, rfl, h2⟩
          · left
            exact List.cons_prefix_cons.mpr ⟨rfl, h1⟩
          · right
            exact ⟨m₂, rfl, h2⟩

theorem infix_split {α : Type} (m x y : List α) (h : m <:+: x ++ y) :
    m <:+: x ∨ m <:+: y ∨
      ∃ m₁ m₂, m = m₁ ++ m₂ ∧ m₁ ≠ [] ∧ m₂ ≠ [] ∧ m₁ <:+ x ∧ m₂ <+: y := by
  induction x generalizing m with
  | nil =>
      right; left
      simpa using h
  | cons a x ih =>
      rw [List.cons_append] at h
      rcases List.infix_cons_iff.mp h with hpre | hinf
      · cases m with
        | nil => left; exact List.nil_infix
        | cons b m' =>
            rcases List.cons_prefix_cons.mp hpre with ⟨rfl, h'⟩
            rcases prefix_split m' x y h' with h1 | ⟨m₂, rfl, h2⟩
            · left
              exact (List.cons_prefix_cons.mpr ⟨rfl, h1⟩).isInfix
            · by_cases hm2 : m₂ = []
              · subst hm2
                left
                exact (List.cons_prefix_cons.mpr ⟨rfl, by simp⟩).isInfix
              · right; right
                exact ⟨b :: x, m₂, by simp, by simp, hm2, List.suffix_refl _, h2⟩
      · rcases ih m hinf with h1 | h2 | ⟨m₁, m₂, heq, hm1, hm2, hsuf, hpre2⟩
        · left; exact List.infix_cons h1
        · right; left; exact h2
        · right; right
          exact ⟨m₁, m₂, heq, hm1, hm2, hsuf.trans (List.suffix_cons a x), hpre2⟩

theorem not_infix_glue_left {nd x y : List Char} (c : Char)
    (hx : ¬ nd <:+: x) (hy : ¬ nd <:+: y)
    (hlast : x.getLast? = some c) (hc : c ∉ nd) : ¬ nd <:+: x ++ y := by
  intro h
  rcases infix_split nd x y h with h1 | h2 | ⟨m₁, m₂, heq, hm1, _, hsuf, _⟩
  · exact hx h1
  · exact hy h2
  · apply hc
    have hlast1 : m₁.getLast? = some c := by
      rcases hsuf with ⟨pre, rfl⟩
      have hgl : (pre ++ m₁).getLast? = m₁.getLast? := by
        rw [List.getLast?_append]
        cases h2 : m₁.getLast? with
        | none => exact absurd (List.getLast?_eq_none_iff.mp h2) hm1
        | some d => simp [Option.or]
      rw [hgl] at hlast
      exact hlast
    rw [heq]
    exact List.mem_append_left _ (List.mem_of_getLast?_eq_some hlast1)

theorem not_infix_glue_right {nd x y : List Char} (c : Char)
    (hx : ¬ nd <:+: x) (hy : ¬ nd <:+: y)
    (hhead : y.head? = some c) (hc : c ∉ nd) : ¬ nd <:+: x ++ y := by
  intro h
  rcases infix_split nd x y h with h1 | h2 | ⟨m₁, m₂, heq, _, hm2, _, hpre⟩
  · exact hx h1
  · exact hy h2
  · apply hc
    have hhead2 : m₂.head? = some c := by
      rcases hpre with ⟨post, rfl⟩
      have hgh : (m₂ ++ post).head? = m₂.head? := by
        rw [List.head?_append]
        cases h2 : m₂.head? with
        | none => exact absurd (List.head?_eq_none_iff.mp h2) hm2
        | some d => simp [Option.or]
      rw [hgh] at hhead
      exact hhead
    have : c ∈ m₂ := by
      cases m₂ with
      | nil => simp at hhead2
      | cons e l => simp at hhead2; rw [hhead2]; exact List.mem_cons_self _ _
    rw [heq]
    exact List.mem_append_right _ this

theorem not_infix_of_disjoint {nd x : List Char} (hnd : nd ≠ [])
    (hsafe : ∀ c ∈ x, c ∉ nd) : ¬ nd <:+: x := by
  intro h
  cases nd with
  | nil => exact hnd rfl
  | cons a nd' =>
      exact hsafe a (h.subset (List.mem_cons_self a nd')) (List.mem_cons_self a nd')

theorem not_infix_glue_allsafe {nd x y : List Char} (hnd : nd ≠ [])
    (hsafe : ∀ c ∈ x, c ∉ nd) (hy : ¬ nd <:+: y) : ¬ nd <:+: x ++ y := by
  intro h
  rcases infix_split nd x y h with h1 | h2 | ⟨m₁, m₂, heq, hm1, _, hsuf, _⟩
  · exact not_infix_of_disjoint hnd hsafe h1
  · exact hy h2
  · rcases List.exists_mem_of_ne_nil m₁ hm1 with ⟨a, ha⟩
    exact hsafe a (hsuf.subset ha) (heq ▸ List.mem_append_left _ ha)

/-! ## Tracker-independence of the helper outputs

Each builder helper returns a string that does not depend on the tracker it
threads; these lemmas let facts about emitted segments be stated against a
fixed fresh tracker. -/

theorem formatDate_fst (t t' : Tracker) (ds fmt : String) :
    (formatDate t ds fmt).1 = (formatDate t' ds fmt).1 := by
  dsimp only [formatDate]
  by_cases h : (validateAndSanitizeValue (.str ds) "date").isValid
  · simp only [h, Bool.not_true]
    cases jsParseDate ds
    · simp
    · dsimp only
      by_cases hf : fmt = "204"
      · simp [hf]
      · by_cases hf2 : fmt = "102" <;> simp [hf, hf2]
  · simp [h]

theorem formatAmount_fst (t t' : Tracker) (amount : JSValue) :
    (formatAmount t amount).1 = (formatAmount t' amount).1 := by
  dsimp only [formatAmount]
  by_cases h : (validateAndSanitizeValue amount "amount" "0.00").isValid
  · simp only [h, Bool.not_true]
    by_cases h2 : jsIsNaN (jsNumberOfValue amount) <;> simp [h2]
  · simp [h]

theorem calculateVATRate_fst (t t' : Tracker) (net tax : JSNum) :
    (calculateVATRate t net tax).1 = (calculateVATRate t' net tax).1 := by
  dsimp only [calculateVATRate]
  by_cases h : (jsNumEq net (.fin (.ofInt 0)) || jsIsNaN net || jsIsNaN tax) <;> simp [h]

theorem getVATCategory_fst (t t' : Tracker) (vatRate : String) :
    (getVATCategory t vatRate).1 = (getVATCategory t' vatRate).1 := by
  dsimp only [getVATCategory]
  by_cases h1 : jsIsNaN (jsParseFloat vatRate)
  · simp [h1]
  · by_cases h2 : jsNumEq (jsParseFloat vatRate) (.fin (.ofInt 0)) <;>
      by_cases h3 : jsNumEq (jsParseFloat vatRate) (.fin (.ofInt 5)) <;>
        by_cases h4 : jsNumEq (jsParseFloat vatRate) (.fin (.ofInt 20)) <;>
          simp [h1, h2, h3, h4]

theorem parseSupplierAddress_fst (t t' : Tracker) (s : String) :
    (parseSupplierAddress t s).1 = (parseSupplierAddress t' s).1 := by
  dsimp only [parseSupplierAddress]
  by_cases h : (validateAndSanitizeValue (.str s) "supplierAddress").isValid
  · simp only [h, Bool.not_true]
    by_cases h2 : (jsSplitChar s ':').length < 2 <;> simp [h2]
  · simp [h]

theorem sanitize_str_valid (s f d : String) (h : jsTrim s ≠ "") :
    validateAndSanitizeValue (.str s) f d =
      ⟨s, true, f, .str s⟩ := by
  have hs : s ≠ "" := by
    intro he
    subst he
    exact h rfl
  unfold validateAndSanitizeValue
  simp [hs, h, jsToString]

/-- **C4 (amended).**  In every document built by the validating
`buildEDIFACTInvoice` the tax-point DTM segment (qualifier 131) is the fifth
segment and carries the date rendering of the *sanitised invoice due date* —
this variant's config has no tax-point field, and the fallback is the due
date's own degradation chain (`19700101` when missing or unparseable), never
the issue date.  The second conjunct ties the sanitised value back to the
input: a present, non-blank due-date string passes through unchanged. -/
theorem taxpoint_uses_due_date (saleOrder : SaleOrder) (invoice : Invoice)
    (items : List LineItem) (csvData : Option CsvRow) (config : EDIConfig)
    (lookup : BarcodeLookup) :
    (buildEDIFACTSegments saleOrder invoice items csvData config lookup).1[4]? =
      some ("DTM+131:" ++
        (formatDate Tracker.init
          (mkSanitizedVals saleOrder invoice csvData config).iDueDate.value "102").1 ++
        ":102") ∧
    (∀ d : String, invoice.dueDate = .str d → jsTrim d ≠ "" →
      (mkSanitizedVals saleOrder invoice csvData config).iDueDate.value = d) := by
  constructor
  · simp only [buildEDIFACTSegments]
    simp only [List.cons_append, List.getElem?_cons_succ, List.getElem?_cons_zero]
    rw [formatDate_fst _ Tracker.init]
  · intro d hd hblank
    simp only [mkSanitizedVals, hd]
    rw [sanitize_str_valid d "invoice.dueDate" "UNDEFINED" hblank]

/-- Witness for the amended C4: on the sample input (due date 2025-04-20) the
theorem yields the concrete tax-point segment. -/
theorem taxpoint_uses_due_date_witness :
    (buildEDIFACTSegments sampleSaleOrder sampleInvoice sampleItems sampleCsv
      sampleConfig sampleLookup).1[4]? = some "DTM+131:20250420:102" ∧
    (mkSanitizedVals sampleSaleOrder sampleInvoice sampleCsv
      sampleConfig).iDueDate.value = "2025-04-20" := by
  constructor
  · rw [(taxpoint_uses_due_date sampleSaleOrder sampleInvoice sampleItems sampleCsv
      sampleConfig sampleLookup).1]
    decide
  · exact (taxpoint_uses_due_date sampleSaleOrder sampleInvoice sampleItems sampleCsv
      sampleConfig sampleLookup).2 "2025-04-20" rfl (by decide)

/-! ## Character classes of generated text

Every string the builder generates itself (as opposed to passing through from
an input field) draws its characters from small concrete alphabets; all
later substring/whitespace/counting arguments reduce to decidable facts about
these alphabets. -/

def digitChars : List Char := ['0', '1', '2', '3', '4', '5', '6', '7', '8', '9']

/-- Digits, sign, decimal point, and the letters of `NaN`/`Infinity`. -/
def numChars : List Char :=
  digitChars ++ ['.', '-', 'N', 'a', 'I', 'n', 'f', 'i', 't', 'y']

theorem natDecimalAux_chars (fuel n : Nat) :
    ∀ c ∈ natDecimalAux fuel n, c ∈ digitChars := by
  induction fuel generalizing n with
  | zero => simp [natDecimalAux]
  | succ fuel ih =>
      cases n with
      | zero => simp [natDecimalAux]
      | succ m =>
          intro c hc
          rw [natDecimalAux] at hc
          rcases List.mem_append.mp hc with h1 | h2
          · exact ih _ c h1
          · rcases List.mem_singleton.mp h2 with rfl
            have hlt : (m + 1) % 10 < 10 := Nat.mod_lt _ (by omega)
            interval_cases h : (m + 1) % 10 <;> decide
          · omega

theorem natDecimal_chars (n : Nat) : ∀ c ∈ (natDecimal n).data, c ∈ digitChars := by
  unfold natDecimal
  by_cases h : n = 0
  · simp [h]
    decide
  · simp only [h, if_false]
    exact natDecimalAux_chars (n + 1) n

theorem natDecimal_ne_nil (n : Nat) : (natDecimal n).data ≠ [] := by
  unfold natDecimal
  by_cases h : n = 0
  · simp [h]
  · simp only [h, if_false]
    cases n with
    | zero => exact absurd rfl h
    | succ m =>
        rw [natDecimalAux]
        · simp
        · omega

theorem replicate_chars (n : Nat) (c : Char) (cs : List Char) (hc : c ∈ cs) :
    ∀ d ∈ List.replicate n c, d ∈ cs := by
  intro d hd
  rw [List.eq_of_mem_replicate hd]
  exact hc

theorem ratDecimalNN_chars (q : JSRat) : ∀ c ∈ (ratDecimalNN q).data, c ∈ numChars := by
  unfold ratDecimalNN
  intro c hc
  have hdig : ∀ m : Nat, ∀ d ∈ (natDecimal m).data, d ∈ numChars := by
    intro m d hd
    exact List.mem_append_left _ (natDecimal_chars m d hd)
  rcases hfind : (List.range 1200).find?
      (fun k => (q.num * (10 : Int) ^ k) % (q.den : Int) == 0) with _ | ⟨_ | k⟩ <;>
    rw [hfind] at hc
  · simp at hc
    rw [hc]
    decide
  · exact hdig _ c hc
  · simp only [String.data_append] at hc
    rcases List.mem_append.mp hc with h1 | h2
    · rcases List.mem_append.mp h1 with h3 | h4
      · exact hdig _ c h3
      · simp at h4
        rw [h4]
        decide
    · rcases List.mem_append.mp h2 with h3 | h4
      · exact List.mem_append_left _
          (replicate_chars _ '0' digitChars (by decide) c h3)
      · exact hdig _ c h4

theorem ratDecimalNN_ne_nil (q : JSRat) : (ratDecimalNN q).data ≠ [] := by
  unfold ratDecimalNN
  rcases hfind : (List.range 1200).find?
      (fun k => (q.num * (10 : Int) ^ k) % (q.den : Int) == 0) with _ | ⟨_ | k⟩
  · simp
  · exact natDecimal_ne_nil _
  · simp only [String.data_append]
    intro h
    rcases List.append_eq_nil.mp h with ⟨h1, _⟩
    rcases List.append_eq_nil.mp h1 with ⟨h2, _⟩
    exact natDecimal_ne_nil _ h2

theorem numToString_chars (n : JSNum) : ∀ c ∈ (numToString n).data, c ∈ numChars := by
  cases n with
  | nan => intro c hc; simp [numToString] at hc; rcases hc with rfl | rfl | rfl <;> decide
  | inf => intro c hc; simp [numToString] at hc
           rcases hc with rfl | rfl | rfl | rfl | rfl | rfl | rfl | rfl <;> decide
  | ninf => intro c hc; simp [numToString] at hc
            rcases hc with rfl | rfl | rfl | rfl | rfl | rfl | rfl | rfl | rfl <;> decide
  | fin q =>
      intro c hc
      simp only [numToString] at hc
      by_cases hneg : q.num < 0
      · rw [if_pos hneg] at hc
        simp only [String.data_append] at hc
        rcases List.mem_append.mp hc with h1 | h2
        · simp at h1
          rw [h1]
          decide
        · exact ratDecimalNN_chars _ c h2
      · rw [if_neg hneg] at hc
        exact ratDecimalNN_chars _ c hc

theorem numToString_ne_nil (n : JSNum) : (numToString n).data ≠ [] := by
  cases n with
  | nan => simp [numToString]
  | inf => simp [numToString]
  | ninf => simp [numToString]
  | fin q =>
      simp only [numToString]
      by_cases hneg : q.num < 0
      · rw [if_pos hneg]
        simp
      · rw [if_neg hneg]
        exact ratDecimalNN_ne_nil q

theorem toFixed2_chars (n : JSNum) : ∀ c ∈ (toFixed2 n).data, c ∈ numChars := by
  cases n with
  | nan => intro c hc; simp [toFixed2] at hc; rcases hc with rfl | rfl | rfl <;> decide
  | inf => intro c hc; simp [toFixed2] at hc
           rcases hc with rfl | rfl | rfl | rfl | rfl | rfl | rfl | rfl <;> decide
  | ninf => intro c hc; simp [toFixed2] at hc
            rcases hc with rfl | rfl | rfl | rfl | rfl | rfl | rfl | rfl | rfl <;> decide
  | fin q =>
      have hrender : ∀ x : JSRat,
          ∀ c ∈ (natDecimal (((200 * x.num + (x.den : Int)).fdiv (2 * (x.den : Int))).toNat / 100) ++ "." ++
            (let ds := natDecimal (((200 * x.num + (x.den : Int)).fdiv (2 * (x.den : Int))).toNat % 100)
             (⟨List.replicate (2 - ds.length) '0'⟩ : String) ++ ds)).data,
            c ∈ numChars := by
        intro x c hc
        simp only [String.data_append] at hc
        rcases List.mem_append.mp hc with h1 | h2
        · rcases List.mem_append.mp h1 with h3 | h4
          · exact List.mem_append_left _ (natDecimal_chars _ c h3)
          · simp at h4
            rw [h4]
            decide
        · rcases List.mem_append.mp h2 with h3 | h4
          · exact List.mem_append_left _
              (replicate_chars _ '0' digitChars (by decide) c h3)
          · exact List.mem_append_left _ (natDecimal_chars _ c h4)
      intro c hc
      simp only [toFixed2] at hc
      by_cases hneg : q.num < 0
      · simp only [hneg, if_pos] at hc
        simp only [String.data_append] at hc
        rcases List.mem_append.mp hc with h1 | h2
        · simp at h1
          rw [h1]
          decide
        · exact hrender q.neg c h2
      · simp only [hneg, if_false] at hc
        exact hrender q c hc

/-! ## Tracker effects of the builder helpers

Under well-formed inputs every `addValidation` the builder performs carries a
valid result, so the tracker's invalid-field list never grows — helpers at
most append warnings. -/

theorem addValidation_valid (t : Tracker) (r : ValidationResult) (h : r.isValid = true) :
    addValidation t r = t := by
  unfold addValidation
  simp [h]

theorem addValidations_valid (t : Tracker) (rs : List ValidationResult)
    (h : ∀ r ∈ rs, r.isValid = true) : addValidations t rs = t := by
  induction rs generalizing t with
  | nil => rfl
  | cons r rest ih =>
      unfold addValidations
      rw [List.foldl_cons, addValidation_valid t r (h r (List.mem_cons_self _ _))]
      exact ih t (fun r hr => h r (List.mem_cons_of_mem _ hr))

theorem addWarning_invalidFields (t : Tracker) (m : String) :
    (addWarning t m).invalidFields = t.invalidFields := rfl

theorem sanitize_num_valid (n : JSNum) (f d : String) :
    validateAndSanitizeValue (.num n) f d = ⟨numToString n, true, f, .num n⟩ := by
  unfold validateAndSanitizeValue
  simp [jsToString]

theorem sanitize_valid_of_present (v : JSValue) (f d : String) (h : fieldPresent v = true) :
    validateAndSanitizeValue v f d = ⟨jsToString v, true, f, v⟩ := by
  cases v with
  | undef => simp [fieldPresent] at h
  | null => simp [fieldPresent] at h
  | str s =>
      have hs : jsTrim s ≠ "" := by simpa [fieldPresent] using h
      exact sanitize_str_valid s f d hs
  | num n => exact sanitize_num_valid n f d

theorem dropWhile_eq_self_of_false {p : Char → Bool} {l : List Char}
    (h : ∀ c ∈ l, p c = false) : l.dropWhile p = l := by
  cases l with
  | nil => rfl
  | cons a l =>
      rw [List.dropWhile_cons, h a (List.mem_cons_self _ _)]
      simp

theorem jsTrim_eq_self_of_nonwhite (s : String) (h : ∀ c ∈ s.data, jsWhite c = false) :
    jsTrim s = s := by
  unfold jsTrim
  rw [dropWhile_eq_self_of_false h]
  rw [dropWhile_eq_self_of_false (fun c hc => h c (List.mem_reverse.mp hc))]
  rw [List.reverse_reverse]

theorem numToString_trim_ne (n : JSNum) : jsTrim (numToString n) ≠ "" := by
  have hwhite : ∀ c ∈ numChars, jsWhite c = false := by decide
  rw [jsTrim_eq_self_of_nonwhite _ (fun c hc => hwhite c (numToString_chars n c hc))]
  intro he
  exact numToString_ne_nil n (congrArg String.data he)

theorem present_value_trim_ne (v : JSValue) (f d : String) (h : fieldPresent v = true) :
    jsTrim ((validateAndSanitizeValue v f d).value) ≠ "" := by
  rw [sanitize_valid_of_present v f d h]
  cases v with
  | undef => simp [fieldPresent] at h
  | null => simp [fieldPresent] at h
  | str s => simpa [fieldPresent, jsToString] using h
  | num n => exact numToString_trim_ne n

theorem formatDate_snd (t : Tracker) (ds fmt : String) (h : jsTrim ds ≠ "") :
    ((formatDate t ds fmt).2).invalidFields = t.invalidFields := by
  simp only [formatDate, sanitize_str_valid ds "date" "UNDEFINED" h]
  rw [addValidation_valid t _ rfl]
  simp only [Bool.not_true, Bool.false_eq_true, if_false]
  cases jsParseDate ds with
  | none => simp [addWarning_invalidFields]
  | some d =>
      by_cases hf : fmt = "204"
      · simp [hf]
      · by_cases hf2 : fmt = "102" <;> simp [hf, hf2]

theorem formatAmount_snd_str (t : Tracker) (s : String) (h : jsTrim s ≠ "") :
    ((formatAmount t (.str s)).2).invalidFields = t.invalidFields := by
  simp only [formatAmount, sanitize_str_valid s "amount" "0.00" h]
  rw [addValidation_valid t _ rfl]
  simp only [Bool.not_true, Bool.false_eq_true, if_false]
  by_cases hn : jsIsNaN (jsNumberOfValue (.str s)) <;> simp [hn, addWarning_invalidFields]

theorem formatAmount_snd_num (t : Tracker) (n : JSNum) :
    ((formatAmount t (.num n)).2).invalidFields = t.invalidFields := by
  simp only [formatAmount, sanitize_num_valid n "amount" "0.00"]
  rw [addValidation_valid t _ rfl]
  simp only [Bool.not_true, Bool.false_eq_true, if_false]
  by_cases hn : jsIsNaN (jsNumberOfValue (.num n)) <;> simp [hn, addWarning_invalidFields]

theorem calculateVATRate_snd (t : Tracker) (a b : JSNum) :
    ((calculateVATRate t a b).2).invalidFields = t.invalidFields := by
  dsimp only [calculateVATRate]
  by_cases h : (jsNumEq a (.fin (.ofInt 0)) || jsIsNaN a || jsIsNaN b) <;>
    simp [h, addWarning_invalidFields]

theorem getVATCategory_snd (t : Tracker) (s : String) :
    ((getVATCategory t s).2).invalidFields = t.invalidFields := by
  dsimp only [getVATCategory]
  by_cases h1 : jsIsNaN (jsParseFloat s)
  · simp [h1, addWarning_invalidFields]
  · by_cases h2 : jsNumEq (jsParseFloat s) (.fin (.ofInt 0)) <;>
      by_cases h3 : jsNumEq (jsParseFloat s) (.fin (.ofInt 5)) <;>
        by_cases h4 : jsNumEq (jsParseFloat s) (.fin (.ofInt 20)) <;>
          simp [h1, h2, h3, h4]

theorem parseSupplierAddress_snd (t : Tracker) (s : String) (h : jsTrim s ≠ "") :
    ((parseSupplierAddress t s).2).invalidFields = t.invalidFields := by
  simp only [parseSupplierAddress, sanitize_str_valid s "supplierAddress" "UNDEFINED" h]
  rw [addValidation_valid t _ rfl]
  simp only [Bool.not_true, Bool.false_eq_true, if_false]
  by_cases hp : (jsSplitChar s ':').length < 2 <;> simp [hp, addWarning_invalidFields]

theorem present_jsToString_trim_ne (v : JSValue) (h : fieldPresent v = true) :
    jsTrim (jsToString v) ≠ "" := by
  cases v with
  | undef => simp [fieldPresent] at h
  | null => simp [fieldPresent] at h
  | str s => simpa [fieldPresent, jsToString] using h
  | num n => exact numToString_trim_ne n

def itemFieldsPresent (item : LineItem) : Bool :=
  fieldPresent item.referenceId && fieldPresent item.quantity &&
  fieldPresent item.price && fieldPresent item.tax

/-- The claim's barcode success condition in the strong form needed for a
clean document: the lookup yields a non-empty barcode other than the sentinel
itself. -/
def GoodBarcodes (items : List LineItem) (lookup : BarcodeLookup) : Prop :=
  ∀ item ∈ items, ∃ b, lookup (jsToString item.referenceId) = some b ∧
    b ≠ "" ∧ b ≠ "UNDEFINED"

theorem buildItems_snd (lookup : BarcodeLookup) (idx : Nat) (items : List LineItem)
    (t : Tracker)
    (hp : ∀ item ∈ items, itemFieldsPresent item = true)
    (hb : GoodBarcodes items lookup) :
    ((buildItems lookup idx items t).2).invalidFields = t.invalidFields := by
  induction items generalizing idx t with
  | nil => rfl
  | cons item rest ih =>
      obtain ⟨b, hbeq, hbne, hbU⟩ := hb item (List.mem_cons_self _ _)
      have hpi := hp item (List.mem_cons_self _ _)
      simp only [itemFieldsPresent, Bool.and_eq_true] at hpi
      obtain ⟨⟨⟨h1, h2⟩, h3⟩, h4⟩ := hpi
      have hbne' : (b == "") = false := by simpa using hbne
      have hbU' : (b == "UNDEFINED") = false := by simpa using hbU
      simp only [buildItems,
        sanitize_valid_of_present item.referenceId
          ("item[" ++ natDecimal idx ++ "].referenceId") "UNDEFINED" h1,
        sanitize_valid_of_present item.quantity
          ("item[" ++ natDecimal idx ++ "].quantity") "1" h2,
        sanitize_valid_of_present item.price
          ("item[" ++ natDecimal idx ++ "].price") "0.00" h3,
        sanitize_valid_of_present item.tax
          ("item[" ++ natDecimal idx ++ "].tax") "0.00" h4,
        hbeq, hbne', hbU', Bool.false_eq_true, if_false, if_true]
      rw [addValidations_valid t _ (by
        intro r hr
        simp only [List.mem_cons, List.mem_singleton] at hr
        rcases hr with rfl | rfl | rfl | rfl | h
        · rfl
        · rfl
        · rfl
        · rfl
        · simp at h)]
      rw [ih (idx + 1) _ (fun it hit => hp it (List.mem_cons_of_mem _ hit))
        (fun it hit => hb it (List.mem_cons_of_mem _ hit))]
      rw [getVATCategory_snd, calculateVATRate_snd, formatAmount_snd_num,
        formatAmount_snd_str t (jsToString item.price) (present_jsToString_trim_ne _ h3)]

theorem trim_ne_imp_ne (s : String) (h : jsTrim s ≠ "") : s ≠ "" := by
  intro he
  subst he
  exact h rfl

/-- Under present-and-non-empty fields and successful barcode lookups, the
whole builder run records no invalid field: the final tracker's
`invalidFields` list is empty. -/
theorem build_invalidFields_nil (saleOrder : SaleOrder) (invoice : Invoice)
    (items : List LineItem) (csvData : Option CsvRow) (config : EDIConfig)
    (lookup : BarcodeLookup)
    (hp : allSanitizedFieldsPresent saleOrder invoice items csvData config = true)
    (hb : GoodBarcodes items lookup) :
    ((buildEDIFACTSegments saleOrder invoice items csvData config lookup).2).invalidFields
      = [] := by
  simp only [allSanitizedFieldsPresent, Bool.and_eq_true] at hp
  obtain ⟨⟨⟨⟨⟨⟨⟨⟨⟨⟨⟨⟨⟨⟨⟨⟨⟨hSender, hReceiver⟩, hBuyer⟩, hDelivery⟩, hVAT⟩, hAddr⟩,
    hVendor⟩, hTerms⟩, hNumber⟩, hIssue⟩, hDue⟩, hCurrency⟩, hSONice⟩, hNice⟩,
    hCarrier⟩, hGLN⟩, hCsvAddr⟩, hAll⟩ := hp
  have hitems : ∀ item ∈ items, itemFieldsPresent item = true := by
    intro it hit
    have := List.all_eq_true.mp hAll it hit
    simpa [itemFieldsPresent] using this
  have hIssueTrim := present_value_trim_ne invoice.issueDate "invoice.issueDate" "UNDEFINED" hIssue
  have hDueTrim := present_value_trim_ne invoice.dueDate "invoice.dueDate" "UNDEFINED" hDue
  have hAddrTrim := present_value_trim_ne config.supplierAddress "config.supplierAddress" "UNDEFINED" hAddr
  have eDateIssue : ∀ (t : Tracker) (fmt : String),
      ((formatDate t (validateAndSanitizeValue invoice.issueDate "invoice.issueDate"
        "UNDEFINED").value fmt).2).invalidFields = t.invalidFields :=
    fun t fmt => formatDate_snd t _ fmt hIssueTrim
  have eDateDue : ∀ (t : Tracker) (fmt : String),
      ((formatDate t (validateAndSanitizeValue invoice.dueDate "invoice.dueDate"
        "UNDEFINED").value fmt).2).invalidFields = t.invalidFields :=
    fun t fmt => formatDate_snd t _ fmt hDueTrim
  have eSupp : ∀ t : Tracker,
      ((parseSupplierAddress t (validateAndSanitizeValue config.supplierAddress
        "config.supplierAddress" "UNDEFINED").value).2).invalidFields = t.invalidFields :=
    fun t => parseSupplierAddress_snd t _ hAddrTrim
  have eItems : ∀ t : Tracker,
      ((buildItems lookup 0 items t).2).invalidFields = t.invalidFields :=
    fun t => buildItems_snd lookup 0 items t hitems hb
  have eWarnIf : ∀ (c : Bool) (t : Tracker) (m : String),
      (if c = true then addWarning t m else t).invalidFields = t.invalidFields := by
    intro c t m
    cases c <;> simp [addWarning_invalidFields]
  have hcond : ((validateAndSanitizeValue invoice.dueDate "invoice.dueDate"
      "UNDEFINED").value != "") = true := by
    simpa using trim_ne_imp_ne _ hDueTrim
  simp only [buildEDIFACTSegments, mkSanitizedVals, hcond, if_true,
    formatAmount_snd_num, getVATCategory_snd, calculateVATRate_snd,
    eDateIssue, eDateDue, eSupp, eItems, eWarnIf]
  rw [addValidations_valid Tracker.init _ ?_]
  · rfl
  · intro r hr
    simp only [SanitizedVals.ordered, List.mem_cons, List.mem_singleton] at hr
    rcases hr with rfl | rfl | rfl | rfl | rfl | rfl | rfl | rfl | rfl | rfl | rfl |
      rfl | rfl | rfl | rfl | rfl | rfl | h
    · rw [sanitize_valid_of_present _ _ _ hSender]
    · rw [sanitize_valid_of_present _ _ _ hReceiver]
    · rw [sanitize_valid_of_present _ _ _ hBuyer]
    · rw [sanitize_valid_of_present _ _ _ hDelivery]
    · rw [sanitize_valid_of_present _ _ _ hVAT]
    · rw [sanitize_valid_of_present _ _ _ hAddr]
    · rw [sanitize_valid_of_present _ _ _ hVendor]
    · rw [sanitize_valid_of_present _ _ _ hTerms]
    · rw [sanitize_valid_of_present _ _ _ hNumber]
    · rw [sanitize_valid_of_present _ _ _ hIssue]
    · rw [sanitize_valid_of_present _ _ _ hDue]
    · rw [sanitize_valid_of_present _ _ _ hCurrency]
    · rw [sanitize_valid_of_present _ _ _ hSONice]
    · rw [sanitize_valid_of_present _ _ _ hNice]
    · rw [sanitize_valid_of_present _ _ _ hCarrier]
    · rw [sanitize_valid_of_present _ _ _ hGLN]
    · rw [sanitize_valid_of_present _ _ _ hCsvAddr]
    · simp at h

/-! ## Ledger lemmas for the step-cascade behaviour -/

theorem modifyFirst_spec (p : LedgerStep → Bool) (f : LedgerStep → LedgerStep) :
    ∀ (l : List LedgerStep) (j : Nat), l.findIdx? p = some j →
      (modifyFirst p f l)[j]? = l[j]?.map f ∧
      ∀ i, i ≠ j → (modifyFirst p f l)[i]? = l[i]? := by
  intro l
  induction l with
  | nil => intro j h; simp [List.findIdx?] at h
  | cons a l ih =>
      intro j h
      rw [List.findIdx?_cons] at h
      by_cases hp : p a = true
      · rw [if_pos hp] at h
        obtain rfl : (0 : Nat) = j := by simpa using h
        constructor
        · simp [modifyFirst, hp]
        · intro i hi
          cases i with
          | zero => exact absurd rfl hi
          | succ i' => simp [modifyFirst, hp]
      · rw [if_neg hp] at h
        rw [List.findIdx?_succ] at h
        rcases Option.map_eq_some'.mp h with ⟨j', hj', rfl⟩
        rcases ih j' hj' with ⟨h1, h2⟩
        constructor
        · simpa [modifyFirst, hp] using h1
        · intro i hi
          cases i with
          | zero => simp [modifyFirst, hp]
          | succ i' =>
              have : i' ≠ j' := by omega
              simpa [modifyFirst, hp] using h2 i' this

theorem findIdx?_found (p : LedgerStep → Bool) :
    ∀ (l : List LedgerStep) (j : Nat), l.findIdx? p = some j →
      ∃ a, l[j]? = some a ∧ p a = true := by
  intro l
  induction l with
  | nil => intro j h; simp [List.findIdx?] at h
  | cons a l ih =>
      intro j h
      rw [List.findIdx?_cons] at h
      by_cases hp : p a = true
      · rw [if_pos hp] at h
        obtain rfl : (0 : Nat) = j := by simpa using h
        exact ⟨a, by simp, hp⟩
      · rw [if_neg hp] at h
        rw [List.findIdx?_succ] at h
        rcases Option.map_eq_some'.mp h with ⟨j', hj', rfl⟩
        rcases ih j' hj' with ⟨b, hb, hpb⟩
        exact ⟨b, by simpa using hb, hpb⟩

theorem any_of_findIdx? (p : LedgerStep → Bool) (l : List LedgerStep) (j : Nat)
    (h : l.findIdx? p = some j) : l.any p = true := by
  rcases findIdx?_found p l j h with ⟨a, ha, hpa⟩
  exact List.any_eq_true.mpr ⟨a, List.getElem?_mem ha, hpa⟩

theorem latestProcessing_single (m : Ledger) (k invoiceId : String) (r : LedgerResult)
    (hres : m.results = [(k, r)]) (hid : r.invoiceId = invoiceId)
    (hst : r.status = "processing") :
    m.latestProcessing invoiceId = some r := by
  simp [Ledger.latestProcessing, Ledger.getAllResults, hres, hid, hst]

theorem objSet_single (k : String) (r v : LedgerResult) : objSet [(k, r)] k v = [(k, v)] := by
  simp [objSet]

theorem updateStepStatus_error_single (m : Ledger) (k invoiceId stepId err : String)
    (r : LedgerResult) (j : Nat)
    (hres : m.results = [(k, r)]) (hid : r.invoiceId = invoiceId)
    (hst : r.status = "processing") (hkey : r.uniqueKey = k)
    (hj : r.steps.findIdx? (fun s => s.id == stepId) = some j) :
    (m.updateStepStatus invoiceId stepId "error" (some err) none).results =
      [(k, { r with
              steps := modifyFirst (fun s => s.id == stepId)
                (fun s => { s with status := "error", error := some err }) r.steps
              status := "error"
              error := some err })] ∧
    (m.updateStepStatus invoiceId stepId "error" (some err) none).processingQueue =
      m.processingQueue.filter (fun q => !(q == k)) := by
  have hlatest := latestProcessing_single m k invoiceId r hres hid hst
  have hany := any_of_findIdx? _ _ _ hj
  simp only [Ledger.updateStepStatus, hlatest, hany, Bool.not_true, Bool.false_eq_true,
    if_false]
  have h1 : (("error" : String) == "error") = true := by decide
  simp only [h1, if_true, Bool.true_eq_false, hres, hkey, objSet_single]
  exact ⟨trivial, rfl⟩

theorem fail_single (m : Ledger) (k invoiceId stepId err : String)
    (r : LedgerResult) (j : Nat)
    (hres : m.results = [(k, r)]) (hid : r.invoiceId = invoiceId)
    (hst : r.status = "processing") (hkey : r.uniqueKey = k)
    (hj : r.steps.findIdx? (fun s => s.id == stepId) = some j) :
    ∃ r', (m.failInvoiceProcessing invoiceId stepId err).results = [(k, r')] ∧
      r'.status = "error" ∧ r'.error = some err ∧
      (∃ a, r'.steps[j]? = some a ∧ a.status = "error" ∧ a.error = some err) ∧
      (∀ i b, j < i → r'.steps[i]? = some b → b.status = "not-attempted") ∧
      (m.failInvoiceProcessing invoiceId stepId err).processingQueue =
        m.processingQueue.filter (fun q => !(q == k)) := by
  have hlatest := latestProcessing_single m k invoiceId r hres hid hst
  rcases updateStepStatus_error_single m k invoiceId stepId err r j hres hid hst hkey hj
    with ⟨h2res, h2q⟩
  simp only [Ledger.failInvoiceProcessing, hlatest, hj, h2res, h2q, hkey, List.map_cons,
    List.map_nil, beq_self_eq_true, if_true]
  refine ⟨_, rfl, rfl, rfl, ?_, ?_, ?_⟩
  · rcases modifyFirst_spec (fun s => s.id == stepId)
        (fun s => { s with status := "error", error := some err }) r.steps j hj
      with ⟨hat, _⟩
    rcases findIdx?_found _ _ _ hj with ⟨a, ha, _⟩
    refine ⟨{ a with status := "error", error := some err }, ?_, rfl, rfl⟩
    simp only [List.getElem?_map, List.getElem?_enum, hat, ha, Option.map_some']
    have hnot : ¬ (j + 1 ≤ j) := by omega
    simp [hnot]
  · intro i b hji hb
    simp only [List.getElem?_map, List.getElem?_enum] at hb
    rcases Option.map_eq_some'.mp hb with ⟨q, hq, rfl⟩
    rcases Option.map_eq_some'.mp hq with ⟨c, _, rfl⟩
    have hle : j + 1 ≤ i := by omega
    simp [hle]
  · rw [List.filter_filter]
    simp

theorem updateStepStatus_success_single (m : Ledger) (k invoiceId stepId : String)
    (d : Option String) (r : LedgerResult) (j : Nat)
    (hres : m.results = [(k, r)]) (hid : r.invoiceId = invoiceId)
    (hst : r.status = "processing") (hkey : r.uniqueKey = k)
    (hj : r.steps.findIdx? (fun s => s.id == stepId) = some j) :
    ∃ r', (m.updateStepStatus invoiceId stepId "success" none d).results = [(k, r')] ∧
      (r'.status = "success" ↔
        r'.steps.all (fun s => s.status == "success") = true) := by
  have hlatest := latestProcessing_single m k invoiceId r hres hid hst
  have hany := any_of_findIdx? _ _ _ hj
  simp only [Ledger.updateStepStatus, hlatest, hany, Bool.not_true, Bool.false_eq_true,
    if_false]
  have h1 : (("success" : String) == "error") = false := by decide
  have h2 : (("success" : String) == "success") = true := by decide
  simp only [h1, h2, Bool.false_eq_true, if_false, if_true, hres, hkey, objSet_single]
  refine ⟨_, rfl, ?_⟩
  by_cases hall : (modifyFirst (fun s => s.id == stepId)
      (fun s => { s with status := "success", data := d }) r.steps).all
        (fun s => s.status == "success") = true
  · simp [hall]
  · simp only [hall, if_false, Bool.false_eq_true]
    rw [hst]
    simp [hall]

theorem complete_single (m : Ledger) (k invoiceId payload : String) (r : LedgerResult)
    (hres : m.results = [(k, r)]) (hid : r.invoiceId = invoiceId)
    (hst : r.status = "processing") (hkey : r.uniqueKey = k) :
    ∃ r', (m.completeInvoiceProcessing invoiceId payload).results = [(k, r')] ∧
      r'.status = "success" ∧ r'.ediPayload = some payload := by
  have hlatest := latestProcessing_single m k invoiceId r hres hid hst
  simp only [Ledger.completeInvoiceProcessing, hlatest, hres, hkey, objSet_single]
  exact ⟨_, rfl, rfl, rfl⟩

/-- **C3 (amended).**  For a ledger holding a single processing entry for an
invoice, `failInvoiceProcessing` marks the named step `error` with the
message, forces every later step to `not-attempted`, sets the entry's overall
status to `error` and drops its key from the processing queue;
`updateStepStatus` with status `success` sets the overall status to `success`
exactly when every one of the five steps is `success`; but the error cascade
runs only through `failInvoiceProcessing`, and `completeInvoiceProcessing`
forces overall `success` unconditionally. -/
theorem ledger_fail_cascade (m : Ledger) (k invoiceId stepId err payload : String)
    (d : Option String) (r : LedgerResult) (j : Nat)
    (hres : m.results = [(k, r)]) (hid : r.invoiceId = invoiceId)
    (hst : r.status = "processing") (hkey : r.uniqueKey = k)
    (hj : r.steps.findIdx? (fun s => s.id == stepId) = some j) :
    (∃ r', (m.failInvoiceProcessing invoiceId stepId err).results = [(k, r')] ∧
      r'.status = "error" ∧ r'.error = some err ∧
      (∃ a, r'.steps[j]? = some a ∧ a.status = "error" ∧ a.error = some err) ∧
      (∀ i b, j < i → r'.steps[i]? = some b → b.status = "not-attempted") ∧
      (m.failInvoiceProcessing invoiceId stepId err).processingQueue =
        m.processingQueue.filter (fun q => !(q == k))) ∧
    (∃ r', (m.updateStepStatus invoiceId stepId "success" none d).results = [(k, r')] ∧
      (r'.status = "success" ↔
        r'.steps.all (fun s => s.status == "success") = true)) ∧
    (∃ r', (m.completeInvoiceProcessing invoiceId payload).results = [(k, r')] ∧
      r'.status = "success" ∧ r'.ediPayload = some payload) :=
  ⟨fail_single m k invoiceId stepId err r j hres hid hst hkey hj,
   updateStepStatus_success_single m k invoiceId stepId d r j hres hid hst hkey hj,
   complete_single m k invoiceId payload r hres hid hst hkey⟩

/-- The cascade theorem applied to a freshly started entry, failing the `edi`
step (index 3): its hypotheses hold and the `transmission` step ends
`not-attempted`. -/
theorem ledger_fail_cascade_witness :
    (Ledger.empty.startInvoiceProcessing "A" 5).results =
      [("A_5", { invoiceId := "A", uniqueKey := "A_5", status := "processing",
                 startTime := 5, steps := initialSteps, ediPayload := none,
                 error := none })] ∧
    initialSteps.findIdx? (fun s => s.id == "edi") = some 3 ∧
    (∃ r', ((Ledger.empty.startInvoiceProcessing "A" 5).failInvoiceProcessing
        "A" "edi" "boom").results = [("A_5", r')] ∧
      r'.status = "error" ∧ r'.error = some "boom" ∧
      (∃ a, r'.steps[3]? = some a ∧ a.status = "error" ∧ a.error = some "boom") ∧
      (∀ i b, 3 < i → r'.steps[i]? = some b → b.status = "not-attempted") ∧
      ((Ledger.empty.startInvoiceProcessing "A" 5).failInvoiceProcessing
        "A" "edi" "boom").processingQueue =
        (Ledger.empty.startInvoiceProcessing "A" 5).processingQueue.filter
          (fun q => !(q == "A_5"))) :=
  ⟨by decide, by decide,
   (ledger_fail_cascade (Ledger.empty.startInvoiceProcessing "A" 5) "A_5" "A" "edi"
     "boom" "PAY" none
     { invoiceId := "A", uniqueKey := "A_5", status := "processing", startTime := 5,
       steps := initialSteps, ediPayload := none, error := none }
     3 (by decide) rfl rfl rfl (by decide)).1⟩

/-! ## Totals skip coerced-to-zero lines; warnings only accumulate -/

theorem jsAdd_zero (n : JSNum) : jsAdd n (.fin (.ofInt 0)) = n := by
  cases n with
  | nan => rfl
  | inf => rfl
  | ninf => rfl
  | fin a =>
      cases a with
      | mk nu de =>
          simp only [jsAdd, JSRat.add, JSRat.ofInt, JSNum.fin.injEq, JSRat.mk.injEq]
          norm_num

theorem totalOf_skip (f : LineItem → JSValue) (l₁ l₂ : List LineItem) (bad : LineItem)
    (h : jsOrZero (jsNumberOfValue (f bad)) = .fin (.ofInt 0)) :
    totalOf f (l₁ ++ bad :: l₂) = totalOf f (l₁ ++ l₂) := by
  unfold totalOf
  simp only [List.foldl_append, List.foldl_cons, h, jsAdd_zero]

def warningsExtend (t t' : Tracker) : Prop := ∃ w, t'.warnings = t.warnings ++ w

theorem warningsExtend_refl (t : Tracker) : warningsExtend t t := ⟨[], by simp⟩

theorem warningsExtend_trans {t₁ t₂ t₃ : Tracker}
    (h₁ : warningsExtend t₁ t₂) (h₂ : warningsExtend t₂ t₃) : warningsExtend t₁ t₃ := by
  rcases h₁ with ⟨w₁, hw₁⟩
  rcases h₂ with ⟨w₂, hw₂⟩
  exact ⟨w₁ ++ w₂, by rw [hw₂, hw₁, List.append_assoc]⟩

theorem mem_of_warningsExtend {a : String} {t t' : Tracker}
    (h : a ∈ t.warnings) (he : warningsExtend t t') : a ∈ t'.warnings := by
  rcases he with ⟨w, hw⟩
  rw [hw]
  exact List.mem_append_left _ h

theorem addValidation_wext (t : Tracker) (r : ValidationResult) :
    warningsExtend t (addValidation t r) := by
  unfold addValidation
  by_cases h : r.isValid = true
  · rw [if_pos h]; exact warningsExtend_refl t
  · rw [if_neg h]; exact ⟨[], by simp⟩

theorem addWarning_wext (t : Tracker) (m : String) :
    warningsExtend t (addWarning t m) := ⟨[m], rfl⟩

theorem addValidations_wext (t : Tracker) (rs : List ValidationResult) :
    warningsExtend t (addValidations t rs) := by
  induction rs generalizing t with
  | nil => exact warningsExtend_refl t
  | cons r rs ih =>
      exact warningsExtend_trans (addValidation_wext t r) (ih (addValidation t r))

theorem formatDate_wext (t : Tracker) (ds fmt : String) :
    warningsExtend t (formatDate t ds fmt).2 := by
  dsimp only [formatDate]
  have h1 := addValidation_wext t (validateAndSanitizeValue (.str ds) "date")
  split
  · exact h1
  · split
    · exact warningsExtend_trans h1 (addWarning_wext _ _)
    · split
      · exact h1
      · split
        · exact h1
        · exact h1

theorem formatAmount_wext (t : Tracker) (a : JSValue) :
    warningsExtend t (formatAmount t a).2 := by
  dsimp only [formatAmount]
  have h1 := addValidation_wext t (validateAndSanitizeValue a "amount" "0.00")
  split
  · exact h1
  · split
    · exact warningsExtend_trans h1 (addWarning_wext _ _)
    · exact h1

theorem calculateVATRate_wext (t : Tracker) (a b : JSNum) :
    warningsExtend t (calculateVATRate t a b).2 := by
  dsimp only [calculateVATRate]
  split
  · exact addWarning_wext _ _
  · exact warningsExtend_refl t

theorem getVATCategory_wext (t : Tracker) (s : String) :
    warningsExtend t (getVATCategory t s).2 := by
  dsimp only [getVATCategory]
  split
  · exact addWarning_wext _ _
  · split
    · exact warningsExtend_refl t
    · split
      · exact warningsExtend_refl t
      · split
        · exact warningsExtend_refl t
        · exact warningsExtend_refl t

theorem parseSupplierAddress_wext (t : Tracker) (s : String) :
    warningsExtend t (parseSupplierAddress t s).2 := by
  dsimp only [parseSupplierAddress]
  have h1 := addValidation_wext t (validateAndSanitizeValue (.str s) "supplierAddress")
  split
  · exact h1
  · split
    · exact warningsExtend_trans h1 (addWarning_wext _ _)
    · exact h1

theorem buildItems_wext (lookup : BarcodeLookup) (idx : Nat) (items : List LineItem)
    (t : Tracker) : warningsExtend t (buildItems lookup idx items t).2 := by
  induction items generalizing idx t with
  | nil => exact warningsExtend_refl t
  | cons item rest ih =>
      simp only [buildItems]
      refine warningsExtend_trans ?_ (ih _ _)
      refine warningsExtend_trans ?_ (getVATCategory_wext _ _)
      refine warningsExtend_trans ?_ (calculateVATRate_wext _ _ _)
      refine warningsExtend_trans ?_ (formatAmount_wext _ _)
      refine warningsExtend_trans ?_ (formatAmount_wext _ _)
      split <;> [skip; skip] <;> split <;>
        first
          | exact warningsExtend_trans (addValidations_wext t _) (addValidation_wext _ _)
          | exact addValidations_wext t _


theorem formatAmount_nan_warn (t : Tracker) (p : String) (hp : jsTrim p ≠ "")
    (hn : jsNumberOfString p = .nan) :
    ("Invalid amount format: " ++ p) ∈ ((formatAmount t (.str p)).2).warnings := by
  dsimp only [formatAmount]
  rw [sanitize_str_valid p "amount" "0.00" hp]
  have hval : addValidation t ⟨p, true, "amount", .str p⟩ = t :=
    addValidation_valid t _ rfl
  simp only [hval, Bool.not_true, Bool.false_eq_true, if_false, jsNumberOfValue, hn,
    jsIsNaN, if_true, jsToString, addWarning]
  exact List.mem_append_right _ (List.mem_singleton.mpr rfl)

theorem buildItems_price_nan_warn (lookup : BarcodeLookup) (p : String)
    (hp : jsTrim p ≠ "") (hn : jsNumberOfString p = .nan) :
    ∀ (l₁ : List LineItem) (bad : LineItem) (l₂ : List LineItem) (idx : Nat) (t : Tracker),
      bad.price = .str p →
      ("Invalid amount format: " ++ p) ∈
        ((buildItems lookup idx (l₁ ++ bad :: l₂) t).2).warnings := by
  intro l₁
  induction l₁ with
  | nil =>
      intro bad l₂ idx t hbad
      simp only [List.nil_append, buildItems]
      refine mem_of_warningsExtend ?_ (buildItems_wext _ _ _ _)
      refine mem_of_warningsExtend ?_ (getVATCategory_wext _ _)
      refine mem_of_warningsExtend ?_ (calculateVATRate_wext _ _ _)
      refine mem_of_warningsExtend ?_ (formatAmount_wext _ _)
      rw [hbad, sanitize_str_valid p ("item[" ++ natDecimal idx ++ "].price") "0.00" hp]
      exact formatAmount_nan_warn _ p hp hn
  | cons item rest ih =>
      intro bad l₂ idx t hbad
      simp only [List.cons_append, buildItems]
      exact mem_of_warningsExtend (ih bad l₂ (idx + 1) _ hbad) (warningsExtend_refl _)

theorem build_price_nan_warn (saleOrder : SaleOrder) (invoice : Invoice)
    (csvData : Option CsvRow) (config : EDIConfig) (lookup : BarcodeLookup)
    (l₁ l₂ : List LineItem) (bad : LineItem) (p : String)
    (hbad : bad.price = .str p) (hp : jsTrim p ≠ "") (hn : jsNumberOfString p = .nan) :
    ("Invalid amount format: " ++ p) ∈
      ((buildEDIFACTSegments saleOrder invoice (l₁ ++ bad :: l₂) csvData config
        lookup).2).warnings := by
  simp only [buildEDIFACTSegments]
  refine mem_of_warningsExtend ?_ (formatAmount_wext _ _)
  refine mem_of_warningsExtend ?_ (formatAmount_wext _ _)
  refine mem_of_warningsExtend ?_ (getVATCategory_wext _ _)
  refine mem_of_warningsExtend ?_ (calculateVATRate_wext _ _ _)
  refine mem_of_warningsExtend ?_ (formatAmount_wext _ _)
  refine mem_of_warningsExtend ?_ (formatAmount_wext _ _)
  refine mem_of_warningsExtend ?_ (formatAmount_wext _ _)
  refine mem_of_warningsExtend ?_ (formatAmount_wext _ _)
  exact buildItems_price_nan_warn lookup p hp hn l₁ bad l₂ 0 _ hbad

theorem buildEDIFACTInvoice_eq (saleOrder : SaleOrder) (invoice : Invoice)
    (items : List LineItem) (csvData : Option CsvRow) (config : EDIConfig)
    (lookup : BarcodeLookup) :
    buildEDIFACTInvoice saleOrder invoice items csvData config lookup =
      { ediPayload := joinNl
          (((buildEDIFACTSegments saleOrder invoice items csvData config lookup).1).map
            (fun segment => segment ++ "'")),
        validation :=
          getValidationSummary
            (buildEDIFACTSegments saleOrder invoice items csvData config lookup).2 } := by
  unfold buildEDIFACTInvoice
  rcases h : buildEDIFACTSegments saleOrder invoice items csvData config lookup with ⟨segs, t⟩
  rfl

/-- **C5 (amended).**  A line whose `price` is a present but non-numeric
string is coerced to 0 in the invoice totals and recorded only as the
`Invalid amount format` warning: the rest of the document is built and gated
valid (`hasUndefinedData = false`).  (A *missing* price, by contrast, is also
coerced to 0 in the totals but is recorded as an invalid field and flips
`hasUndefinedData`, as the counterexample shows.) -/
theorem nonnumeric_price_warns (saleOrder : SaleOrder) (invoice : Invoice)
    (csvData : Option CsvRow) (config : EDIConfig) (lookup : BarcodeLookup)
    (l₁ l₂ : List LineItem) (bad : LineItem) (p : String)
    (hbad : bad.price = .str p) (hn : jsNumberOfString p = .nan)
    (hpres : allSanitizedFieldsPresent saleOrder invoice (l₁ ++ bad :: l₂) csvData
      config = true)
    (hb : GoodBarcodes (l₁ ++ bad :: l₂) lookup) :
    totalOf LineItem.price (l₁ ++ bad :: l₂) = totalOf LineItem.price (l₁ ++ l₂) ∧
    (buildEDIFACTInvoice saleOrder invoice (l₁ ++ bad :: l₂) csvData config
      lookup).validation.hasUndefinedData = false ∧
    ("Invalid amount format: " ++ p) ∈
      (buildEDIFACTInvoice saleOrder invoice (l₁ ++ bad :: l₂) csvData config
        lookup).validation.warnings := by
  have hpbad : fieldPresent bad.price = true := by
    have h := hpres
    simp only [allSanitizedFieldsPresent, Bool.and_eq_true] at h
    have hmem : bad ∈ l₁ ++ bad :: l₂ := List.mem_append_right _ (List.mem_cons_self _ _)
    have hb4 := List.all_eq_true.mp h.2 bad hmem
    simp only [Bool.and_eq_true] at hb4
    exact hb4.1.2
  have hp : jsTrim p ≠ "" := by
    rw [hbad] at hpbad
    simpa [fieldPresent] using hpbad
  refine ⟨?_, ?_, ?_⟩
  · apply totalOf_skip
    rw [hbad]
    simp [jsNumberOfValue, hn, jsOrZero, jsTruthyNum]
  · rw [buildEDIFACTInvoice_eq]
    simp only [getValidationSummary,
      build_invalidFields_nil saleOrder invoice (l₁ ++ bad :: l₂) csvData config lookup
        hpres hb]
    rfl
  · rw [buildEDIFACTInvoice_eq]
    simp only [getValidationSummary]
    exact build_price_nan_warn saleOrder invoice csvData config lookup l₁ l₂ bad p
      hbad hp hn

def badPriceItem : LineItem := ⟨.str "ref9", .str "1", .str "abc", .str "0"⟩

/-- Witness for the amended C5: a concrete non-numeric price `"abc"` on a
third line satisfies every hypothesis of the theorem. -/
theorem nonnumeric_price_warns_witness :
    jsNumberOfString "abc" = .nan ∧
    allSanitizedFieldsPresent sampleSaleOrder sampleInvoice
      (sampleItems ++ badPriceItem :: []) sampleCsv sampleConfig = true ∧
    (totalOf LineItem.price (sampleItems ++ badPriceItem :: []) =
      totalOf LineItem.price (sampleItems ++ []) ∧
     (buildEDIFACTInvoice sampleSaleOrder sampleInvoice
        (sampleItems ++ badPriceItem :: []) sampleCsv sampleConfig
        sampleLookup).validation.hasUndefinedData = false ∧
     ("Invalid amount format: " ++ "abc") ∈
       (buildEDIFACTInvoice sampleSaleOrder sampleInvoice
         (sampleItems ++ badPriceItem :: []) sampleCsv sampleConfig
         sampleLookup).validation.warnings) :=
  ⟨by decide, by decide,
   nonnumeric_price_warns sampleSaleOrder sampleInvoice sampleCsv sampleConfig
     sampleLookup sampleItems [] badPriceItem "abc" rfl (by decide) (by decide)
     (fun item _ => ⟨"5000000000001", rfl, by decide, by decide⟩)⟩

/-! ## Newline-freedom: the payload splits back into its segments -/

def nlFree (s : String) : Bool := s.data.all (fun c => !(c == '\n'))

theorem nlFree_append (x y : String) : nlFree (x ++ y) = (nlFree x && nlFree y) := by
  simp [nlFree, String.data_append, List.all_append]

theorem nlFree_append_iff (x y : String) :
    nlFree (x ++ y) = true ↔ nlFree x = true ∧ nlFree y = true := by
  rw [nlFree_append, Bool.and_eq_true]

theorem splitCharAux_nlFree (l : List Char) (h : ∀ c ∈ l, ¬ c = '\n') :
    splitCharAux '\n' l = [⟨l⟩] := by
  induction l with
  | nil => rfl
  | cons c rest ih =>
      have hrest : splitCharAux '\n' rest = [⟨rest⟩] :=
        ih (fun d hd => h d (List.mem_cons_of_mem _ hd))
      have hc : ¬ c = '\n' := h c (List.mem_cons_self _ _)
      simp only [splitCharAux, hrest, if_neg hc]

theorem splitCharAux_ne_nil (sep : Char) (l : List Char) : splitCharAux sep l ≠ [] := by
  cases l with
  | nil => simp [splitCharAux]
  | cons c rest =>
      simp only [splitCharAux]
      rcases h : splitCharAux sep rest with _ | ⟨hd, tl⟩
      · simp
      · by_cases hc : c = sep <;> simp [hc]

theorem splitCharAux_glue (pre suf : List Char) (h : ∀ c ∈ pre, ¬ c = '\n') :
    splitCharAux '\n' (pre ++ '\n' :: suf) = (⟨pre⟩ : String) :: splitCharAux '\n' suf := by
  induction pre with
  | nil =>
      simp only [List.nil_append, splitCharAux]
      rcases hs : splitCharAux '\n' suf with _ | ⟨hd, tl⟩
      · exact absurd hs (splitCharAux_ne_nil _ _)
      · simp
  | cons c rest ih =>
      have hc : ¬ c = '\n' := h c (List.mem_cons_self _ _)
      have hrest := ih (fun d hd => h d (List.mem_cons_of_mem _ hd))
      rw [List.cons_append]
      simp only [splitCharAux]
      rw [hrest]
      simp [hc]

theorem payloadLines_joinNl (l : List String) (hne : l ≠ [])
    (h : ∀ s ∈ l, nlFree s = true) : payloadLines (joinNl l) = l := by
  induction l with
  | nil => exact absurd rfl hne
  | cons s rest ih =>
      cases rest with
      | nil =>
          have hs : ∀ c ∈ s.data, ¬ c = '\n' := by
            intro c hc
            have := List.all_eq_true.mp (h s (List.mem_cons_self _ _)) c hc
            simpa using this
          show splitCharAux '\n' s.data = [s]
          rw [splitCharAux_nlFree s.data hs]
      | cons r rs =>
          have hs : ∀ c ∈ s.data, ¬ c = '\n' := by
            intro c hc
            have := List.all_eq_true.mp (h s (List.mem_cons_self _ _)) c hc
            simpa using this
          have hdata : (joinNl (s :: r :: rs)).data =
              s.data ++ '\n' :: (joinNl (r :: rs)).data := by
            show (s ++ "\n" ++ joinNl (r :: rs)).data = _
            simp [String.data_append]
          show splitCharAux '\n' (joinNl (s :: r :: rs)).data = s :: r :: rs
          rw [hdata, splitCharAux_glue _ _ hs]
          have := ih (by simp) (fun x hx => h x (List.mem_cons_of_mem _ hx))
          rw [show splitCharAux '\n' (joinNl (r :: rs)).data =
            payloadLines (joinNl (r :: rs)) from rfl, this]

theorem nlFree_of_chars (s : String) (cs : List Char)
    (hsub : ∀ c ∈ s.data, c ∈ cs) (hcs : ∀ c ∈ cs, ¬ c = '\n') : nlFree s = true := by
  rw [nlFree, List.all_eq_true]
  intro c hc
  simpa using hcs c (hsub c hc)

theorem numChars_no_nl : ∀ c ∈ numChars, ¬ c = '\n' := by decide

theorem digitChars_no_nl : ∀ c ∈ digitChars, ¬ c = '\n' := by decide

theorem sanitize_value_cases (v : JSValue) (f d : String) :
    (validateAndSanitizeValue v f d).value = d ∨
    (validateAndSanitizeValue v f d).value = jsToString v := by
  unfold validateAndSanitizeValue
  split
  · left; rfl
  · split
    · left; rfl
    · right; rfl

theorem nlFree_sanitize (v : JSValue) (f d : String) (hd : nlFree d = true)
    (hv : nlFree (jsToString v) = true) :
    nlFree (validateAndSanitizeValue v f d).value = true := by
  rcases sanitize_value_cases v f d with h | h <;> rw [h]
  · exact hd
  · exact hv

theorem jsPadStart_chars (s : String) (n : Nat) (c0 : Char) (cs : List Char)
    (hs : ∀ c ∈ s.data, c ∈ cs) (hc : c0 ∈ cs) :
    ∀ c ∈ (jsPadStart s n c0).data, c ∈ cs := by
  unfold jsPadStart
  split
  · exact hs
  · intro c hc2
    rw [String.data_append] at hc2
    rcases List.mem_append.mp hc2 with h1 | h2
    · exact replicate_chars _ c0 cs hc c h1
    · exact hs c h2

theorem nlFree_padStart (s : String) (n : Nat) (c0 : Char) (hs : nlFree s = true)
    (hc0 : ¬ c0 = '\n') : nlFree (jsPadStart s n c0) = true := by
  unfold jsPadStart
  split
  · exact hs
  · rw [nlFree_append_iff]
    refine ⟨?_, hs⟩
    rw [nlFree, List.all_eq_true]
    intro c hc
    have := List.eq_of_mem_replicate hc
    subst this
    simpa using hc0

theorem formatDate_chars (t : Tracker) (ds fmt : String) :
    ∀ c ∈ ((formatDate t ds fmt).1).data, c ∈ digitChars := by
  dsimp only [formatDate]
  have hlit : ∀ c ∈ ("19700101" : String).data, c ∈ digitChars := by decide
  have hy : ∀ m : Nat, ∀ c ∈ (jsPadStart (natDecimal m) 2 '0').data, c ∈ digitChars :=
    fun m => jsPadStart_chars _ 2 '0' digitChars (natDecimal_chars m) (by decide)
  split
  · exact hlit
  · split
    · exact hlit
    · split
      · intro c hc
        simp only [String.data_append] at hc
        rcases List.mem_append.mp hc with h | h
        rcases List.mem_append.mp h with h | h
        rcases List.mem_append.mp h with h | h
        rcases List.mem_append.mp h with h | h
        rcases List.mem_append.mp h with h | h
        · exact natDecimal_chars _ c h
        all_goals exact hy _ c h
      · split
        · intro c hc
          simp only [String.data_append] at hc
          rcases List.mem_append.mp hc with h | h
          rcases List.mem_append.mp h with h | h
          · exact natDecimal_chars _ c h
          all_goals exact hy _ c h
        · intro c hc
          simp only [String.data_append] at hc
          rcases List.mem_append.mp hc with h | h
          rcases List.mem_append.mp h with h | h
          · exact natDecimal_chars _ c h
          all_goals exact hy _ c h

theorem nlFree_formatDate (t : Tracker) (ds fmt : String) :
    nlFree (formatDate t ds fmt).1 = true :=
  nlFree_of_chars _ digitChars (formatDate_chars t ds fmt) digitChars_no_nl

theorem formatAmount_chars (t : Tracker) (a : JSValue) :
    ∀ c ∈ ((formatAmount t a).1).data, c ∈ numChars := by
  dsimp only [formatAmount]
  have hlit : ∀ c ∈ ("0.00" : String).data, c ∈ numChars := by decide
  split
  · exact hlit
  · split
    · exact hlit
    · exact toFixed2_chars _

theorem nlFree_formatAmount (t : Tracker) (a : JSValue) :
    nlFree (formatAmount t a).1 = true :=
  nlFree_of_chars _ numChars (formatAmount_chars t a) numChars_no_nl

theorem calculateVATRate_chars (t : Tracker) (a b : JSNum) :
    ∀ c ∈ ((calculateVATRate t a b).1).data, c ∈ numChars := by
  dsimp only [calculateVATRate]
  split
  · intro c hc
    exact (by decide : ∀ c ∈ ("0.00" : String).data, c ∈ numChars) c hc
  · exact toFixed2_chars _

theorem nlFree_calculateVATRate (t : Tracker) (a b : JSNum) :
    nlFree (calculateVATRate t a b).1 = true :=
  nlFree_of_chars _ numChars (calculateVATRate_chars t a b) numChars_no_nl

theorem getVATCategory_out (t : Tracker) (s : String) :
    (getVATCategory t s).1 = "S" ∨ (getVATCategory t s).1 = "Z" ∨
      (getVATCategory t s).1 = "L" := by
  dsimp only [getVATCategory]
  split
  · left; rfl
  · split
    · right; left; rfl
    · split
      · right; right; rfl
      · split
        · left; rfl
        · left; rfl

theorem nlFree_getVATCategory (t : Tracker) (s : String) :
    nlFree (getVATCategory t s).1 = true := by
  rcases getVATCategory_out t s with h | h | h <;> rw [h] <;> decide

theorem parseSupplierAddress_out (t : Tracker) (s : String) :
    (parseSupplierAddress t s).1 = "UNDEFINED:UNDEFINED:UNDEFINED:UNDEFINED:UNDEFINED" ∨
    (parseSupplierAddress t s).1 = s := by
  dsimp only [parseSupplierAddress]
  split
  · left; rfl
  · right
    split
    · rfl
    · rfl

theorem nlFree_natDecimal (n : Nat) : nlFree (natDecimal n) = true :=
  nlFree_of_chars _ digitChars (natDecimal_chars n) digitChars_no_nl

theorem nlFree_substringFrom (s : String) (a : Nat) (h : nlFree s = true) :
    nlFree (jsSubstringFrom s a) = true := by
  rw [nlFree, List.all_eq_true] at h ⊢
  intro c hc
  exact h c (List.mem_of_mem_drop hc)

theorem nlFree_substringRange (s : String) (a b : Nat) (h : nlFree s = true) :
    nlFree (jsSubstringRange s a b) = true := by
  rw [nlFree, List.all_eq_true] at h ⊢
  intro c hc
  exact h c (List.mem_of_mem_take (List.mem_of_mem_drop hc))

theorem mem_ite_nil (c : Prop) [Decidable c] (l : List String) (s : String)
    (h : s ∈ if c then l else []) : s ∈ l := by
  split at h
  · exact h
  · simp at h

/-- Newline-freedom of every input string the builder can splice into a
segment (numbers, `undefined` and `null` stringify without newlines, so the
condition is on `String(v)` uniformly). -/
def inputsNlFree (saleOrder : SaleOrder) (invoice : Invoice) (items : List LineItem)
    (csvData : Option CsvRow) (config : EDIConfig) : Bool :=
  nlFree (jsToString config.senderGLN) && nlFree (jsToString config.receiverGLN) &&
  nlFree (jsToString config.buyerGLN) && nlFree (jsToString config.supplierVAT) &&
  nlFree (jsToString config.supplierAddress) &&
  nlFree (jsToString config.internalVendorNumber) &&
  nlFree (jsToString config.paymentTerms) && nlFree (jsToString config.vendorReference) &&
  nlFree (jsToString invoice.invoiceNumber) && nlFree (jsToString invoice.issueDate) &&
  nlFree (jsToString invoice.dueDate) && nlFree (jsToString invoice.currency) &&
  nlFree (jsToString invoice.saleOrderNiceId) &&
  nlFree (jsToString saleOrder.niceId) && nlFree (jsToString saleOrder.carrierReference) &&
  nlFree (jsToString (csvField csvData CsvRow.GLN)) &&
  nlFree (jsToString (csvField csvData CsvRow.address)) &&
  items.all (fun item => nlFree (jsToString item.quantity))

/-- Newline-freedom of every barcode the lookup can return for these items. -/
def lookupNlFree (items : List LineItem) (lookup : BarcodeLookup) : Prop :=
  ∀ item ∈ items, ∀ b, lookup (jsToString item.referenceId) = some b → nlFree b = true

theorem buildItems_nlFree (lookup : BarcodeLookup) (idx : Nat) (items : List LineItem)
    (t : Tracker)
    (hq : ∀ item ∈ items, nlFree (jsToString item.quantity) = true)
    (hlk : lookupNlFree items lookup) :
    ∀ s ∈ (buildItems lookup idx items t).1, nlFree s = true := by
  induction items generalizing idx t with
  | nil => intro s hs; simp [buildItems] at hs
  | cons item rest ih =>
      intro s hs
      simp only [buildItems, List.cons_append, List.nil_append, List.mem_cons] at hs
      rcases hs with rfl | rfl | rfl | rfl | rfl | hs
      · simp only [nlFree_append_iff]
        refine ⟨⟨⟨⟨by decide, nlFree_natDecimal _⟩, by decide⟩, ?_⟩, by decide⟩
        split
        · cases hlo : lookup (jsToString item.referenceId) with
          | none => decide
          | some b =>
              dsimp only
              split
              · decide
              · exact hlk item (List.mem_cons_self _ _) b hlo
        · decide
      · simp only [nlFree_append_iff]
        exact ⟨⟨by decide, nlFree_sanitize _ _ _ (by decide)
          (hq item (List.mem_cons_self _ _))⟩, by decide⟩
      · simp only [nlFree_append_iff]
        exact ⟨by decide, nlFree_formatAmount _ _⟩
      · simp only [nlFree_append_iff]
        exact ⟨by decide, nlFree_formatAmount _ _⟩
      · simp only [nlFree_append_iff]
        exact ⟨⟨⟨by decide, nlFree_calculateVATRate _ _ _⟩, by decide⟩,
          nlFree_getVATCategory _ _⟩
      · exact ih (idx + 1) _ (fun x hx => hq x (List.mem_cons_of_mem _ hx))
          (fun x hx => hlk x (List.mem_cons_of_mem _ hx)) s hs

theorem nlFree_app (x y : String) (hx : nlFree x = true) (hy : nlFree y = true) :
    nlFree (x ++ y) = true := (nlFree_append_iff x y).mpr ⟨hx, hy⟩

theorem buildSegments_nlFree (saleOrder : SaleOrder) (invoice : Invoice)
    (items : List LineItem) (csvData : Option CsvRow) (config : EDIConfig)
    (lookup : BarcodeLookup)
    (hin : inputsNlFree saleOrder invoice items csvData config = true)
    (hlk : lookupNlFree items lookup) :
    ∀ s ∈ (buildEDIFACTSegments saleOrder invoice items csvData config lookup).1,
      nlFree s = true := by
  simp only [inputsNlFree, Bool.and_eq_true] at hin
  obtain ⟨⟨⟨⟨⟨⟨⟨⟨⟨⟨⟨⟨⟨⟨⟨⟨⟨hSender, hReceiver⟩, hBuyer⟩, hVAT⟩, hAddr⟩, hVendorNum⟩,
    hTerms⟩, hVendorRef⟩, hInvNum⟩, hIssue⟩, hDue⟩, hCur⟩, hSONice⟩, hNice⟩,
    hCarrier⟩, hGLN⟩, hCsvAddr⟩, hQAll⟩ := hin
  have hq : ∀ item ∈ items, nlFree (jsToString item.quantity) = true := by
    intro it hit
    simpa using List.all_eq_true.mp hQAll it hit
  intro s hs
  simp only [buildEDIFACTSegments, mkSanitizedVals] at hs
  rcases List.mem_append.mp hs with h | h
  · rcases List.mem_append.mp h with h | h
    · rcases List.mem_append.mp h with h | h
      · rcases List.mem_append.mp h with h | h
        · rcases List.mem_append.mp h with h | h
          · rcases List.mem_append.mp h with h | h
            · rcases List.mem_append.mp h with h | h
              · simp only [List.mem_cons, List.not_mem_nil, or_false] at h
                rcases h with rfl | rfl | rfl | rfl | rfl
                · repeat' apply nlFree_app
                  · decide
                  · exact nlFree_sanitize _ _ _ (by decide) hSender
                  · decide
                  · exact nlFree_sanitize _ _ _ (by decide) hReceiver
                  · decide
                  · exact nlFree_substringFrom _ _ (nlFree_formatDate _ _ _)
                  · decide
                  · exact nlFree_substringRange _ _ _ (nlFree_formatDate _ _ _)
                  · decide
                  · exact nlFree_padStart _ _ _
                      (nlFree_sanitize _ _ _ (by decide) hNice) (by decide)
                  · decide
                · decide
                · repeat' apply nlFree_app
                  · decide
                  · exact nlFree_padStart _ _ _
                      (nlFree_sanitize _ _ _ (by decide) hInvNum) (by decide)
                  · decide
                · repeat' apply nlFree_app
                  · decide
                  · exact nlFree_formatDate _ _ _
                  · decide
                · repeat' apply nlFree_app
                  · decide
                  · exact nlFree_formatDate _ _ _
                  · decide
              · have h' := mem_ite_nil _ _ _ h
                simp only [List.mem_singleton] at h'
                subst h'
                repeat' apply nlFree_app
                · decide
                · exact nlFree_padStart _ _ _
                    (nlFree_sanitize _ _ _ (by decide) hSONice) (by decide)
            · have h' := mem_ite_nil _ _ _ h
              simp only [List.mem_singleton] at h'
              subst h'
              repeat' apply nlFree_app
              · decide
              · exact nlFree_padStart _ _ _ hVendorRef (by decide)
          · simp only [List.mem_cons, List.not_mem_nil, or_false] at h
            rcases h with rfl | rfl | rfl | rfl | rfl | rfl | rfl
            · repeat' apply nlFree_app
              · decide
              · exact nlFree_sanitize _ _ _ (by decide) hBuyer
              · decide
            · decide
            · repeat' apply nlFree_app
              · decide
              · exact nlFree_sanitize _ _ _ (by decide) hGLN
              · decide
              · exact nlFree_sanitize _ _ _ (by decide) hCarrier
              · decide
              · exact nlFree_sanitize _ _ _ (by decide) hCsvAddr
            · repeat' apply nlFree_app
              · decide
              · exact nlFree_sanitize _ _ _ (by decide) hSender
              · decide
              · rcases parseSupplierAddress_out _ _ with h | h <;> rw [h]
                · decide
                · exact nlFree_sanitize _ _ _ (by decide) hAddr
            · repeat' apply nlFree_app
              · decide
              · exact nlFree_sanitize _ _ _ (by decide) hVAT
            · repeat' apply nlFree_app
              · decide
              · exact nlFree_sanitize _ _ _ (by decide) hVendorNum
            · repeat' apply nlFree_app
              · decide
              · exact nlFree_sanitize _ _ _ (by decide) hCur
              · decide
        · have h' := mem_ite_nil _ _ _ h
          simp only [List.mem_cons, List.not_mem_nil, or_false] at h'
          rcases h' with rfl | rfl
          · repeat' apply nlFree_app
            · decide
            · exact nlFree_sanitize _ _ _ (by decide) hTerms
          · repeat' apply nlFree_app
            · decide
            · exact nlFree_formatDate _ _ _
            · decide
      · exact buildItems_nlFree lookup 0 items _ hq hlk s h
    · simp only [List.mem_cons, List.not_mem_nil, or_false] at h
      rcases h with rfl | rfl | rfl | rfl | rfl | rfl | rfl | rfl | rfl
      · decide
      · repeat' apply nlFree_app
        · decide
        · exact nlFree_natDecimal _
      · repeat' apply nlFree_app
        · decide
        · exact nlFree_formatAmount _ _
      · repeat' apply nlFree_app
        · decide
        · exact nlFree_formatAmount _ _
      · repeat' apply nlFree_app
        · decide
        · exact nlFree_formatAmount _ _
      · repeat' apply nlFree_app
        · decide
        · exact nlFree_formatAmount _ _
      · repeat' apply nlFree_app
        · decide
        · exact nlFree_calculateVATRate _ _ _
        · decide
        · exact nlFree_getVATCategory _ _
      · repeat' apply nlFree_app
        · decide
        · exact nlFree_formatAmount _ _
      · repeat' apply nlFree_app
        · decide
        · exact nlFree_formatAmount _ _
  · simp only [List.mem_cons, List.not_mem_nil, or_false] at h
    rcases h with rfl | rfl
    · apply nlFree_app
      · apply nlFree_app
        · decide
        · exact nlFree_natDecimal _
      · decide
    · apply nlFree_app
      · decide
      · exact nlFree_padStart _ _ _ (nlFree_sanitize _ _ _ (by decide) hNice)
          (by decide)

theorem unt_shape (l : List String) (z : String) :
    (l ++ ["UNT+" ++ natDecimal (l.length + 2) ++ "+1", z])[(l ++ ["UNT+" ++ natDecimal (l.length + 2) ++ "+1", z]).length - 2]? =
    some ("UNT+" ++ natDecimal
      (l ++ ["UNT+" ++ natDecimal (l.length + 2) ++ "+1", z]).length ++ "+1") := by
  have h1 : (l ++ ["UNT+" ++ natDecimal (l.length + 2) ++ "+1", z]).length =
      l.length + 2 := by simp
  rw [h1]
  have h2 : l.length + 2 - 2 = l.length := by omega
  rw [h2, List.getElem?_append_right (le_refl _)]
  simp

/-- **C2 (amended).**  When no input string (and no returned barcode) contains
a newline, the payload splits on `'\n'` back into exactly the generated
segments, each apostrophe-terminated, so the segment count obtained that way
equals the length of the segment array — and the `UNT+` segment (always the
second-to-last) carries exactly that total count (the `+2` in the source adds
`UNT` and `UNZ` themselves to the pre-`UNT` count, not 2 to the total). -/
theorem unt_equals_total (saleOrder : SaleOrder) (invoice : Invoice)
    (items : List LineItem) (csvData : Option CsvRow) (config : EDIConfig)
    (lookup : BarcodeLookup)
    (hin : inputsNlFree saleOrder invoice items csvData config = true)
    (hlk : lookupNlFree items lookup) :
    payloadLines ((buildEDIFACTInvoice saleOrder invoice items csvData config
        lookup).ediPayload) =
      ((buildEDIFACTSegments saleOrder invoice items csvData config lookup).1).map
        (fun segment => segment ++ "'") ∧
    countPayloadSegments ((buildEDIFACTInvoice saleOrder invoice items csvData config
        lookup).ediPayload) =
      ((buildEDIFACTSegments saleOrder invoice items csvData config lookup).1).length ∧
    ((buildEDIFACTSegments saleOrder invoice items csvData config lookup).1)[((buildEDIFACTSegments saleOrder invoice items csvData config lookup).1).length - 2]? =
      some ("UNT+" ++ natDecimal
        ((buildEDIFACTSegments saleOrder invoice items csvData config
          lookup).1).length ++ "+1") := by
  have hne : (buildEDIFACTSegments saleOrder invoice items csvData config lookup).1
      ≠ [] := by
    simp only [buildEDIFACTSegments]
    intro hc
    have := congrArg List.length hc
    simp [List.length_append] at this
  have hmapne :
      ((buildEDIFACTSegments saleOrder invoice items csvData config lookup).1).map
        (fun segment => segment ++ "'") ≠ [] := by
    intro hc
    exact hne (List.map_eq_nil_iff.mp hc)
  have hnl : ∀ x ∈ ((buildEDIFACTSegments saleOrder invoice items csvData config
      lookup).1).map (fun segment => segment ++ "'"), nlFree x = true := by
    intro x hx
    rcases List.mem_map.mp hx with ⟨seg, hseg, rfl⟩
    exact nlFree_app _ _
      (buildSegments_nlFree saleOrder invoice items csvData config lookup hin hlk
        seg hseg) (by decide)
  have h1 : payloadLines ((buildEDIFACTInvoice saleOrder invoice items csvData config
      lookup).ediPayload) =
      ((buildEDIFACTSegments saleOrder invoice items csvData config lookup).1).map
        (fun segment => segment ++ "'") := by
    rw [buildEDIFACTInvoice_eq]
    exact payloadLines_joinNl _ hmapne hnl
  refine ⟨h1, ?_, ?_⟩
  · rw [countPayloadSegments, h1, List.length_map]
  · simp only [buildEDIFACTSegments]
    exact unt_shape _ _

/-- Witness for the amended C2: the sample inputs are newline-free, and the
payload's newline count matches the segment array length. -/
theorem unt_equals_total_witness :
    inputsNlFree sampleSaleOrder sampleInvoice sampleItems sampleCsv
      sampleConfig = true ∧
    countPayloadSegments ((buildEDIFACTInvoice sampleSaleOrder sampleInvoice
      sampleItems sampleCsv sampleConfig sampleLookup).ediPayload) =
      ((buildEDIFACTSegments sampleSaleOrder sampleInvoice sampleItems sampleCsv
        sampleConfig sampleLookup).1).length :=
  ⟨by decide,
   (unt_equals_total sampleSaleOrder sampleInvoice sampleItems sampleCsv sampleConfig
     sampleLookup (by decide)
     (fun item _ b hb => by
       simp [sampleLookup] at hb
       rw [← hb]
       decide)).2.1⟩

/-! ## Needle-freedom: no `UNDEFINED` substring in any generated segment -/

def NFstr (s : String) : Prop := ¬ "UNDEFINED".data <:+: s.data

instance (s : String) : Decidable (NFstr s) := by
  unfold NFstr
  infer_instance

theorem NFstr_of_safe (s : String) (h : ∀ c ∈ s.data, c ∉ "UNDEFINED".data) :
    NFstr s :=
  not_infix_of_disjoint (by decide) h

theorem NFstr_app_left (x y : String) (c : Char) (hlast : x.data.getLast? = some c)
    (hc : c ∉ "UNDEFINED".data) (hx : NFstr x) (hy : NFstr y) : NFstr (x ++ y) := by
  unfold NFstr at hx hy ⊢
  rw [String.data_append]
  exact not_infix_glue_left c hx hy hlast hc

theorem NFstr_app_right (x y : String) (c : Char) (hhead : y.data.head? = some c)
    (hc : c ∉ "UNDEFINED".data) (hx : NFstr x) (hy : NFstr y) : NFstr (x ++ y) := by
  unfold NFstr at hx hy ⊢
  rw [String.data_append]
  exact not_infix_glue_right c hx hy hhead hc

theorem data_getLast?_append (x y : String) (c : Char)
    (h : y.data.getLast? = some c) : (x ++ y).data.getLast? = some c := by
  rw [String.data_append, List.getLast?_append, h]
  rfl

theorem digit_not_needle : ∀ c ∈ digitChars, c ∉ "UNDEFINED".data := by decide

theorem NFstr_natDecimal (n : Nat) : NFstr (natDecimal n) :=
  NFstr_of_safe _ (fun c hc => digit_not_needle c (natDecimal_chars n c hc))

theorem NFstr_formatDate (t : Tracker) (ds fmt : String) :
    NFstr (formatDate t ds fmt).1 :=
  NFstr_of_safe _ (fun c hc => digit_not_needle c (formatDate_chars t ds fmt c hc))

theorem NFstr_sanitize_present (v : JSValue) (f d : String)
    (hp : fieldPresent v = true) (hv : NFstr (jsToString v)) :
    NFstr (validateAndSanitizeValue v f d).value := by
  rw [sanitize_valid_of_present v f d hp]
  exact hv

theorem NFstr_padStart (s : String) (n : Nat) (c0 : Char) (hs : NFstr s)
    (hc0 : c0 ∉ "UNDEFINED".data) : NFstr (jsPadStart s n c0) := by
  unfold jsPadStart
  split
  · exact hs
  · unfold NFstr at hs ⊢
    rw [String.data_append]
    refine not_infix_glue_allsafe (by decide) ?_ hs
    intro c hc
    rw [List.eq_of_mem_replicate hc]
    exact hc0

def finNumChars : List Char := digitChars ++ ['.', '-']

theorem finNumChars_not_needle : ∀ c ∈ finNumChars, c ∉ "UNDEFINED".data := by decide

theorem toFixed2_fin_chars (q : JSRat) :
    ∀ c ∈ (toFixed2 (.fin q)).data, c ∈ finNumChars := by
  have hrender : ∀ x : JSRat,
      ∀ c ∈ (natDecimal (((200 * x.num + (x.den : Int)).fdiv (2 * (x.den : Int))).toNat / 100) ++ "." ++
        (let ds := natDecimal (((200 * x.num + (x.den : Int)).fdiv (2 * (x.den : Int))).toNat % 100)
         (⟨List.replicate (2 - ds.length) '0'⟩ : String) ++ ds)).data,
        c ∈ finNumChars := by
    intro x c hc
    simp only [String.data_append] at hc
    rcases List.mem_append.mp hc with h1 | h2
    · rcases List.mem_append.mp h1 with h3 | h4
      · exact List.mem_append_left _ (natDecimal_chars _ c h3)
      · simp at h4
        rw [h4]
        decide
    · rcases List.mem_append.mp h2 with h3 | h4
      · exact List.mem_append_left _
          (replicate_chars _ '0' digitChars (by decide) c h3)
      · exact List.mem_append_left _ (natDecimal_chars _ c h4)
  intro c hc
  simp only [toFixed2] at hc
  by_cases hneg : q.num < 0
  · simp only [hneg, if_pos] at hc
    simp only [String.data_append] at hc
    rcases List.mem_append.mp hc with h1 | h2
    · simp at h1
      rw [h1]
      decide
    · exact hrender q.neg c h2
  · simp only [hneg, if_false] at hc
    exact hrender q c hc

theorem NFstr_toFixed2 (n : JSNum) : NFstr (toFixed2 n) := by
  cases n with
  | nan => decide
  | inf => decide
  | ninf => decide
  | fin q =>
      exact NFstr_of_safe _
        (fun c hc => finNumChars_not_needle c (toFixed2_fin_chars q c hc))

theorem NFstr_formatAmount (t : Tracker) (a : JSValue) :
    NFstr (formatAmount t a).1 := by
  dsimp only [formatAmount]
  split
  · exact (by decide : NFstr "0.00")
  · split
    · exact (by decide : NFstr "0.00")
    · exact NFstr_toFixed2 _

theorem NFstr_calculateVATRate (t : Tracker) (a b : JSNum) :
    NFstr (calculateVATRate t a b).1 := by
  dsimp only [calculateVATRate]
  split
  · exact (by decide : NFstr "0.00")
  · exact NFstr_toFixed2 _

theorem NFstr_getVATCategory (t : Tracker) (s : String) :
    NFstr (getVATCategory t s).1 := by
  rcases getVATCategory_out t s with h | h | h <;> rw [h] <;> decide

theorem parseSupplierAddress_out_valid (t : Tracker) (s : String) (h : jsTrim s ≠ "") :
    (parseSupplierAddress t s).1 = s := by
  dsimp only [parseSupplierAddress]
  rw [sanitize_str_valid s "supplierAddress" "UNDEFINED" h]
  simp

theorem NFstr_joinNl (l : List String) (h : ∀ s ∈ l, NFstr s) : NFstr (joinNl l) := by
  induction l with
  | nil => decide
  | cons s rest ih =>
      cases rest with
      | nil => exact h s (List.mem_cons_self _ _)
      | cons r rs =>
          show NFstr ((s ++ "\n") ++ joinNl (r :: rs))
          refine NFstr_app_left _ _ '\n' (data_getLast?_append _ _ _ (by decide))
            (by decide) ?_ ?_
          · exact NFstr_app_right _ _ '\n' rfl (by decide)
              (h s (List.mem_cons_self _ _)) (by decide)
          · exact ih (fun x hx => h x (List.mem_cons_of_mem _ hx))

/-- Needle-freedom of every input string the builder can splice into a
segment verbatim. -/
def inputsNeedleFree (saleOrder : SaleOrder) (invoice : Invoice)
    (items : List LineItem) (csvData : Option CsvRow) (config : EDIConfig) : Prop :=
  NFstr (jsToString config.senderGLN) ∧ NFstr (jsToString config.receiverGLN) ∧
  NFstr (jsToString config.buyerGLN) ∧ NFstr (jsToString config.supplierVAT) ∧
  NFstr (jsToString config.supplierAddress) ∧
  NFstr (jsToString config.internalVendorNumber) ∧
  NFstr (jsToString config.paymentTerms) ∧ NFstr (jsToString config.vendorReference) ∧
  NFstr (jsToString invoice.invoiceNumber) ∧ NFstr (jsToString invoice.currency) ∧
  NFstr (jsToString invoice.saleOrderNiceId) ∧
  NFstr (jsToString saleOrder.niceId) ∧ NFstr (jsToString saleOrder.carrierReference) ∧
  NFstr (jsToString (csvField csvData CsvRow.GLN)) ∧
  NFstr (jsToString (csvField csvData CsvRow.address)) ∧
  (∀ item ∈ items, NFstr (jsToString item.quantity))

instance (saleOrder : SaleOrder) (invoice : Invoice) (items : List LineItem)
    (csvData : Option CsvRow) (config : EDIConfig) :
    Decidable (inputsNeedleFree saleOrder invoice items csvData config) := by
  unfold inputsNeedleFree
  infer_instance

/-- Needle-freedom of every barcode the lookup can return for these items. -/
def lookupNeedleFree (items : List LineItem) (lookup : BarcodeLookup) : Prop :=
  ∀ item ∈ items, ∀ b, lookup (jsToString item.referenceId) = some b → NFstr b

theorem buildItems_NF (lookup : BarcodeLookup) (idx : Nat) (items : List LineItem)
    (t : Tracker)
    (hpres : ∀ item ∈ items, itemFieldsPresent item = true)
    (hb : GoodBarcodes items lookup)
    (hq : ∀ item ∈ items, NFstr (jsToString item.quantity))
    (hlknf : lookupNeedleFree items lookup) :
    ∀ s ∈ (buildItems lookup idx items t).1, NFstr s := by
  induction items generalizing idx t with
  | nil => intro s hs; simp [buildItems] at hs
  | cons item rest ih =>
      have hp4 := hpres item (List.mem_cons_self _ _)
      simp only [itemFieldsPresent, Bool.and_eq_true] at hp4
      obtain ⟨⟨⟨hpRef, hpQty⟩, hpPrice⟩, hpTax⟩ := hp4
      obtain ⟨b, hlo, hbne, hbU⟩ := hb item (List.mem_cons_self _ _)
      have hbNF : NFstr b := hlknf item (List.mem_cons_self _ _) b hlo
      intro s hs
      simp only [buildItems, List.cons_append, List.nil_append, List.mem_cons] at hs
      rcases hs with rfl | rfl | rfl | rfl | rfl | hs
      · refine NFstr_app_right _ _ ':' rfl (by decide) ?_ (by decide)
        refine NFstr_app_left _ _ '+' (data_getLast?_append _ _ _ (by decide))
          (by decide) ?_ ?_
        · refine NFstr_app_right _ _ '+' rfl (by decide) ?_ (by decide)
          exact NFstr_app_left _ _ '+' (by decide) (by decide) (by decide)
            (NFstr_natDecimal _)
        · rw [sanitize_valid_of_present _ _ _ hpRef]
          dsimp only
          rw [hlo]
          have hbeq : (b == "") = false := by simpa using hbne
          simp only [hbeq, Bool.false_eq_true, if_false]
          exact hbNF
      · refine NFstr_app_right _ _ ':' rfl (by decide) ?_ (by decide)
        refine NFstr_app_left _ _ ':' (by decide) (by decide) (by decide) ?_
        exact NFstr_sanitize_present _ _ _ hpQty (hq item (List.mem_cons_self _ _))
      · exact NFstr_app_left _ _ ':' (by decide) (by decide) (by decide)
          (NFstr_formatAmount _ _)
      · exact NFstr_app_left _ _ ':' (by decide) (by decide) (by decide)
          (NFstr_formatAmount _ _)
      · refine NFstr_app_left _ _ '+' (data_getLast?_append _ _ _ (by decide))
          (by decide) ?_ (NFstr_getVATCategory _ _)
        refine NFstr_app_right _ _ '+' rfl (by decide) ?_ (by decide)
        exact NFstr_app_left _ _ ':' (by decide) (by decide) (by decide)
          (NFstr_calculateVATRate _ _ _)
      · exact ih (idx + 1) _ (fun x hx => hpres x (List.mem_cons_of_mem _ hx))
          (fun x hx => hb x (List.mem_cons_of_mem _ hx))
          (fun x hx => hq x (List.mem_cons_of_mem _ hx))
          (fun x hx => hlknf x (List.mem_cons_of_mem _ hx)) s hs

set_option maxRecDepth 40000 in
theorem buildSegments_NF (saleOrder : SaleOrder) (invoice : Invoice)
    (items : List LineItem) (csvData : Option CsvRow) (config : EDIConfig)
    (lookup : BarcodeLookup)
    (hpres : allSanitizedFieldsPresent saleOrder invoice items csvData config = true)
    (hb : GoodBarcodes items lookup)
    (hnf : inputsNeedleFree saleOrder invoice items csvData config)
    (hlknf : lookupNeedleFree items lookup) :
    ∀ s ∈ (buildEDIFACTSegments saleOrder invoice items csvData config lookup).1,
      NFstr s := by
  simp only [allSanitizedFieldsPresent, Bool.and_eq_true] at hpres
  obtain ⟨⟨⟨⟨⟨⟨⟨⟨⟨⟨⟨⟨⟨⟨⟨⟨⟨pSender, pReceiver⟩, pBuyer⟩, pDelivery⟩, pVAT⟩, pAddr⟩,
    pVendor⟩, pTerms⟩, pNumber⟩, pIssue⟩, pDue⟩, pCurrency⟩, pSONice⟩, pNice⟩,
    pCarrier⟩, pGLN⟩, pCsvAddr⟩, pAll⟩ := hpres
  obtain ⟨hSender, hReceiver, hBuyer, hVAT, hAddr, hVendorNum, hTerms, hVendorRef,
    hInvNum, hCur, hSONice, hNice, hCarrier, hGLN, hCsvAddr, hQAll⟩ := hnf
  have hitems : ∀ item ∈ items, itemFieldsPresent item = true := by
    intro it hit
    have := List.all_eq_true.mp pAll it hit
    simpa [itemFieldsPresent] using this
  intro s hs
  simp only [buildEDIFACTSegments, mkSanitizedVals] at hs
  rcases List.mem_append.mp hs with h | h
  · rcases List.mem_append.mp h with h | h
    · rcases List.mem_append.mp h with h | h
      · rcases List.mem_append.mp h with h | h
        · rcases List.mem_append.mp h with h | h
          · rcases List.mem_append.mp h with h | h
            · rcases List.mem_append.mp h with h | h
              · simp only [List.mem_cons, List.not_mem_nil, or_false] at h
                rcases h with rfl | rfl | rfl | rfl | rfl
                · refine NFstr_app_right _ _ '+' rfl (by decide) ?_ (by decide)
                  refine NFstr_app_left _ _ '+'
                    (data_getLast?_append _ _ _ (by decide)) (by decide) ?_ ?_
                  · refine NFstr_app_right _ _ '+' rfl (by decide) ?_ (by decide)
                    refine NFstr_app_left _ _ '+'
                      (data_getLast?_append _ _ _ (by decide)) (by decide) ?_ ?_
                    · refine NFstr_app_right _ _ ':' rfl (by decide) ?_ (by decide)
                      refine NFstr_app_left _ _ '+'
                        (data_getLast?_append _ _ _ (by decide)) (by decide) ?_ ?_
                      · refine NFstr_app_right _ _ ':' rfl (by decide) ?_ (by decide)
                        refine NFstr_app_left _ _ '+' (by decide) (by decide)
                          (by decide) ?_
                        exact NFstr_sanitize_present _ _ _ pSender hSender
                      · exact NFstr_sanitize_present _ _ _ pReceiver hReceiver
                    · refine NFstr_of_safe _ ?_
                      intro c hc
                      simp only [String.data_append, jsSubstringFrom,
                        jsSubstringRange] at hc
                      rcases List.mem_append.mp hc with h | h
                      · rcases List.mem_append.mp h with h | h
                        · exact digit_not_needle c
                            (formatDate_chars _ _ _ c (List.mem_of_mem_drop h))
                        · simp only [List.mem_singleton] at h
                          subst h
                          decide
                      · exact digit_not_needle c (formatDate_chars _ _ _ c
                          (List.mem_of_mem_take (List.mem_of_mem_drop h)))
                  · exact NFstr_padStart _ _ _
                      (NFstr_sanitize_present _ _ _ pNice hNice) (by decide)
                · decide
                · refine NFstr_app_right _ _ '+' rfl (by decide) ?_ (by decide)
                  refine NFstr_app_left _ _ '+' (by decide) (by decide) (by decide) ?_
                  exact NFstr_padStart _ _ _
                    (NFstr_sanitize_present _ _ _ pNumber hInvNum) (by decide)
                · refine NFstr_app_right _ _ ':' rfl (by decide) ?_ (by decide)
                  exact NFstr_app_left _ _ ':' (by decide) (by decide) (by decide)
                    (NFstr_formatDate _ _ _)
                · refine NFstr_app_right _ _ ':' rfl (by decide) ?_ (by decide)
                  exact NFstr_app_left _ _ ':' (by decide) (by decide) (by decide)
                    (NFstr_formatDate _ _ _)
              · have h' := mem_ite_nil _ _ _ h
                simp only [List.mem_singleton] at h'
                subst h'
                refine NFstr_app_left _ _ ':' (by decide) (by decide) (by decide) ?_
                exact NFstr_padStart _ _ _
                  (NFstr_sanitize_present _ _ _ pSONice hSONice) (by decide)
            · have h' := mem_ite_nil _ _ _ h
              simp only [List.mem_singleton] at h'
              subst h'
              refine NFstr_app_left _ _ ':' (by decide) (by decide) (by decide) ?_
              exact NFstr_padStart _ _ _ hVendorRef (by decide)
          · simp only [List.mem_cons, List.not_mem_nil, or_false] at h
            rcases h with rfl | rfl | rfl | rfl | rfl | rfl | rfl
            · refine NFstr_app_right _ _ ':' rfl (by decide) ?_ (by decide)
              refine NFstr_app_left _ _ '+' (by decide) (by decide) (by decide) ?_
              exact NFstr_sanitize_present _ _ _ pBuyer hBuyer
            · decide
            · refine NFstr_app_left _ _ ':'
                (data_getLast?_append _ _ _ (by decide)) (by decide) ?_
                (NFstr_sanitize_present _ _ _ pCsvAddr hCsvAddr)
              refine NFstr_app_right _ _ ':' rfl (by decide) ?_ (by decide)
              refine NFstr_app_left _ _ '+'
                (data_getLast?_append _ _ _ (by decide)) (by decide) ?_
                (NFstr_sanitize_present _ _ _ pCarrier hCarrier)
              refine NFstr_app_right _ _ ':' rfl (by decide) ?_ (by decide)
              refine NFstr_app_left _ _ '+' (by decide) (by decide) (by decide) ?_
              exact NFstr_sanitize_present _ _ _ pGLN hGLN
            · refine NFstr_app_left _ _ '+'
                (data_getLast?_append _ _ _ (by decide)) (by decide) ?_ ?_
              · refine NFstr_app_right _ _ ':' rfl (by decide) ?_ (by decide)
                refine NFstr_app_left _ _ '+' (by decide) (by decide) (by decide) ?_
                exact NFstr_sanitize_present _ _ _ pSender hSender
              · rw [parseSupplierAddress_out_valid _ _
                  (present_value_trim_ne _ _ _ pAddr)]
                exact NFstr_sanitize_present _ _ _ pAddr hAddr
            · refine NFstr_app_left _ _ ':' (by decide) (by decide) (by decide) ?_
              exact NFstr_sanitize_present _ _ _ pVAT hVAT
            · refine NFstr_app_left _ _ ':' (by decide) (by decide) (by decide) ?_
              exact NFstr_sanitize_present _ _ _ pVendor hVendorNum
            · refine NFstr_app_right _ _ ':' rfl (by decide) ?_ (by decide)
              refine NFstr_app_left _ _ ':' (by decide) (by decide) (by decide) ?_
              exact NFstr_sanitize_present _ _ _ pCurrency hCur
        · have h' := mem_ite_nil _ _ _ h
          simp only [List.mem_cons, List.not_mem_nil, or_false] at h'
          rcases h' with rfl | rfl
          · refine NFstr_app_left _ _ ':' (by decide) (by decide) (by decide) ?_
            exact NFstr_sanitize_present _ _ _ pTerms hTerms
          · refine NFstr_app_right _ _ ':' rfl (by decide) ?_ (by decide)
            exact NFstr_app_left _ _ ':' (by decide) (by decide) (by decide)
              (NFstr_formatDate _ _ _)
      · exact buildItems_NF lookup 0 items _ hitems hb hQAll hlknf s h
    · simp only [List.mem_cons, List.not_mem_nil, or_false] at h
      rcases h with rfl | rfl | rfl | rfl | rfl | rfl | rfl | rfl | rfl
      · decide
      · exact NFstr_app_left _ _ ':' (by decide) (by decide) (by decide)
          (NFstr_natDecimal _)
      · exact NFstr_app_left _ _ ':' (by decide) (by decide) (by decide)
          (NFstr_formatAmount _ _)
      · exact NFstr_app_left _ _ ':' (by decide) (by decide) (by decide)
          (NFstr_formatAmount _ _)
      · exact NFstr_app_left _ _ ':' (by decide) (by decide) (by decide)
          (NFstr_formatAmount _ _)
      · exact NFstr_app_left _ _ ':' (by decide) (by decide) (by decide)
          (NFstr_formatAmount _ _)
      · refine NFstr_app_left _ _ '+'
          (data_getLast?_append _ _ _ (by decide)) (by decide) ?_
          (NFstr_getVATCategory _ _)
        refine NFstr_app_right _ _ '+' rfl (by decide) ?_ (by decide)
        exact NFstr_app_left _ _ ':' (by decide) (by decide) (by decide)
          (NFstr_calculateVATRate _ _ _)
      · exact NFstr_app_left _ _ ':' (by decide) (by decide) (by decide)
          (NFstr_formatAmount _ _)
      · exact NFstr_app_left _ _ ':' (by decide) (by decide) (by decide)
          (NFstr_formatAmount _ _)
  · simp only [List.mem_cons, List.not_mem_nil, or_false] at h
    rcases h with rfl | rfl
    · refine NFstr_app_right _ _ '+' rfl (by decide) ?_ (by decide)
      exact NFstr_app_left _ _ '+' (by decide) (by decide) (by decide)
        (NFstr_natDecimal _)
    · refine NFstr_app_left _ _ '+' (by decide) (by decide) (by decide) ?_
      exact NFstr_padStart _ _ _ (NFstr_sanitize_present _ _ _ pNice hNice)
        (by decide)

/-- **C1 (amended).**  When every sanitised field is present and non-empty,
the barcode lookup returns a non-empty, non-sentinel barcode for every line
item, and additionally no input string and no returned barcode itself
contains the substring `UNDEFINED`, the built document has
`validation.hasUndefinedData = false` and its payload contains no `UNDEFINED`
substring.  (The extra needle-freedom hypotheses are necessary: the
counterexample passes a sender GLN whose text is literally `"UNDEFINED"`,
which satisfies the claim's original hypotheses yet lands verbatim in the
payload.) -/
theorem undefined_free_payload (saleOrder : SaleOrder) (invoice : Invoice)
    (items : List LineItem) (csvData : Option CsvRow) (config : EDIConfig)
    (lookup : BarcodeLookup)
    (hpres : allSanitizedFieldsPresent saleOrder invoice items csvData config = true)
    (hb : GoodBarcodes items lookup)
    (hnf : inputsNeedleFree saleOrder invoice items csvData config)
    (hlknf : lookupNeedleFree items lookup) :
    (buildEDIFACTInvoice saleOrder invoice items csvData config
      lookup).validation.hasUndefinedData = false ∧
    ¬ ("UNDEFINED".data <:+:
      (buildEDIFACTInvoice saleOrder invoice items csvData config
        lookup).ediPayload.data) := by
  constructor
  · rw [buildEDIFACTInvoice_eq]
    simp only [getValidationSummary,
      build_invalidFields_nil saleOrder invoice items csvData config lookup hpres hb]
    rfl
  · rw [buildEDIFACTInvoice_eq]
    show NFstr (joinNl
      (((buildEDIFACTSegments saleOrder invoice items csvData config lookup).1).map
        (fun segment => segment ++ "'")))
    apply NFstr_joinNl
    intro x hx
    rcases List.mem_map.mp hx with ⟨seg, hseg, rfl⟩
    exact NFstr_app_right _ _ '\'' rfl (by decide)
      (buildSegments_NF saleOrder invoice items csvData config lookup hpres hb hnf
        hlknf seg hseg) (by decide)

/-- Witness for the amended C1: the sample inputs satisfy presence,
barcode-goodness and needle-freedom, so the sample payload is
`UNDEFINED`-free. -/
theorem undefined_free_payload_witness :
    allSanitizedFieldsPresent sampleSaleOrder sampleInvoice sampleItems sampleCsv
      sampleConfig = true ∧
    inputsNeedleFree sampleSaleOrder sampleInvoice sampleItems sampleCsv
      sampleConfig ∧
    ((buildEDIFACTInvoice sampleSaleOrder sampleInvoice sampleItems sampleCsv
      sampleConfig sampleLookup).validation.hasUndefinedData = false ∧
    ¬ ("UNDEFINED".data <:+:
      (buildEDIFACTInvoice sampleSaleOrder sampleInvoice sampleItems sampleCsv
        sampleConfig sampleLookup).ediPayload.data)) :=
  ⟨by decide, by decide,
   undefined_free_payload sampleSaleOrder sampleInvoice sampleItems sampleCsv
     sampleConfig sampleLookup (by decide)
     (fun item _ => ⟨"5000000000001", rfl, by decide, by decide⟩)
     (by decide)
     (fun item _ b hb => by
       simp [sampleLookup] at hb
       rw [← hb]
       decide)⟩
